import Mathlib

/-!
# USDw contract: a shallow embedding of `lib/usdwContract.js`

The chaincode runs one operation per transaction against a keyed world state.
Three kinds of keys are used: `acct:<id>` for account records, `SUPPLY` and
`RESERVES`.  No key `acct:<id>` equals `SUPPLY` or `RESERVES`, so the world state
is represented by three independent components: the account records keyed by id,
the record under `SUPPLY` and the record under `RESERVES`.

Decimal strings (`balance`, `value`, the `amountStr` arguments) are represented by
the integer they denote: `BigInt(n.toString()) = n`, and the amount arguments are
well-formed integer literals.

Records are typed: what `JSON.parse` returns for a stored account is an `Account`.
The contract stores nothing but what `JSON.stringify` produced, so the branch of
`_readJSON` for unparsable bytes is never taken and is not represented.

A transaction is a function from the transaction state (staged world state and
staged event) to a result and the transaction state at the point where the
operation returned or threw.  An operation that throws therefore still shows
which writes it had staged.  No operation reads a key after it has written it, so
reading the staged state and reading the committed state give the same values.
The platform commits the staged writes of an operation that returns and discards
those of an operation that throws (`commit`).
-/

namespace USDw

/-- The value of `ctx.stub.getTxTimestamp()`. -/
structure Timestamp where
  seconds : Nat
  nanos : Nat
  deriving DecidableEq, Repr

/-- The JSON object stored under `acct:<id>`.  `kycHash` is absent until `SubmitKYC`. -/
structure Account where
  id : String
  ownerMSP : String
  kycStatus : String
  kycHash : Option String
  frozen : Bool
  sanctioned : Bool
  balance : Int
  meta : List (String × String)
  deriving DecidableEq, Repr

/-- The JSON object stored under `SUPPLY`. -/
structure SupplyRecord where
  value : Int
  deriving DecidableEq, Repr

/-- The JSON object stored under `RESERVES`. -/
structure ReservesRecord where
  value : Int
  «by» : String
  ts : Timestamp
  deriving DecidableEq, Repr

/-- The events of the contract, one constructor per event name, with its payload. -/
inductive Event where
  | AccountRegistered (accountId : String)
  | KYCUploaded (accountId : String)
  | KYCVerified (accountId : String)
  | AccountFrozen (accountId : String)
  | AccountUnfrozen (accountId : String)
  | AccountSanctioned (accountId : String)
  | AccountUnsanctioned (accountId : String)
  | ReserveUpdated (reserves : Int)
  | Mint («to» : String) (amount : Int) (supply : Int)
  | Transfer (type : String) («from» : String) («to» : String) (amount : Int)
      (travelRuleHash : String) (ts : Timestamp) (txId : String)
  | LedgerInitialized (accounts : List String)
  deriving DecidableEq, Repr

/-- The world state. -/
structure Ledger where
  accounts : List (String × Account)
  supply : Option SupplyRecord
  reserves : Option ReservesRecord
  deriving DecidableEq, Repr

/-- The state of one transaction: the world state with the writes staged so far, and the
event set so far. -/
structure TxState where
  ledger : Ledger
  event : Option Event
  deriving DecidableEq, Repr

/-- The read-only part of the execution context: `ctx.clientIdentity` (`none` when the
identity has no `getMSPID`), `ctx.stub.getTxTimestamp()` and `ctx.stub.getTxID()`. -/
structure Ctx where
  mspId : Option String
  txTimestamp : Timestamp
  txID : String
  deriving DecidableEq, Repr

/-- A transaction body: it returns a value or throws an error message, and leaves the
transaction state it reached. -/
def Tx (α : Type) : Type := TxState → Except String α × TxState

/-- Sequencing of the statements of an operation: a throw skips what follows. -/
instance : Monad Tx where
  pure a := fun w => (Except.ok a, w)
  bind m f := fun w =>
    match m w with
    | (Except.ok a, w') => f a w'
    | (Except.error e, w') => (Except.error e, w')

/-! ## The platform: store, events, errors -/

/-- The statement `throw new Error(msg)`: the operation stops with the message. -/
def throwErr {α : Type} (msg : String) : Tx α := fun w => (Except.error msg, w)

/-- Lookup of `ctx.stub.getState(key)` on the account keys. -/
def getState (id : String) : List (String × Account) → Option Account
  | [] => none
  | (k, v) :: rest => if k = id then some v else getState id rest

/-- Update of `ctx.stub.putState(key, value)` on the account keys: the record under the key
is replaced, or the key is added. -/
def putState (id : String) (a : Account) : List (String × Account) → List (String × Account)
  | [] => [(id, a)]
  | (k, v) :: rest => if k = id then (id, a) :: rest else (k, v) :: putState id a rest

/-- The call `ctx.stub.setEvent(name, payload)`: the event of the transaction is set. -/
def setEvent (e : Event) : Tx Unit :=
  fun w => (Except.ok (), { w with event := some e })

/-- The call `ctx.stub.getState(_accountKey(id))` inside a transaction. -/
def stubGetState (id : String) : Tx (Option Account) :=
  fun w => (Except.ok (getState id w.ledger.accounts), w)

/-! ## Internal helpers -/

/-- The MSP id of the caller, `'UnknownMSP'` when the identity has no `getMSPID`. -/
def _getMSPId (ctx : Ctx) : String :=
  match ctx.mspId with
  | some m => m
  | none => "UnknownMSP"

/-- The call `_readJSON(ctx, _accountKey(id))`: `null` when nothing is stored under the key. -/
def _readJSON (id : String) : Tx (Option Account) := do
  let b ← stubGetState id
  match b with
  | none => return none
  | some a => return some a

/-- The call `_writeJSON(ctx, _accountKey(id), obj)`. -/
def _writeJSON (id : String) (obj : Account) : Tx Unit :=
  fun w => (Except.ok (),
    { w with ledger := { w.ledger with accounts := putState id obj w.ledger.accounts } })

/-- The account record of `id`; throws when there is none. -/
def _readAccount (id : String) : Tx Account := do
  let a ← _readJSON id
  match a with
  | none => throwErr ("Account " ++ id ++ " not found")
  | some a => return a

/-- The value `_getSupply` computes from the record under `SUPPLY`:
`v && v.value ? BigInt(v.value) : 0n`. -/
def supplyValue (s : Ledger) : Int :=
  match s.supply with
  | some v => v.value
  | none => 0

/-- The value `_getReserves` computes from the record under `RESERVES`:
`v && v.value ? BigInt(v.value) : 0n`. -/
def reservesValue (s : Ledger) : Int :=
  match s.reserves with
  | some v => v.value
  | none => 0

/-- The supply read from the record under `SUPPLY`. -/
def _getSupply : Tx Int :=
  fun w => (Except.ok (supplyValue w.ledger), w)

/-- The call `_writeJSON(ctx, 'SUPPLY', { value: s.toString() })`. -/
def _setSupply (s : Int) : Tx Unit :=
  fun w => (Except.ok (), { w with ledger := { w.ledger with supply := some { value := s } } })

/-- The reserves read from the record under `RESERVES`. -/
def _getReserves : Tx Int :=
  fun w => (Except.ok (reservesValue w.ledger), w)

/-- The call `_writeJSON(ctx, 'RESERVES', obj)`. -/
def _writeReserves (obj : ReservesRecord) : Tx Unit :=
  fun w => (Except.ok (), { w with ledger := { w.ledger with reserves := some obj } })

/-! ## Operations -/

/-- Operation `RegisterAccount(ctx, id)`: an existing record makes it return a message without writing. -/
def RegisterAccount (ctx : Ctx) (id : String) : Tx String := do
  let ex ← stubGetState id
  if ex.isSome then return "Account " ++ id ++ " already exists"
  let acct : Account :=
    { id := id
      ownerMSP := _getMSPId ctx
      kycStatus := "PENDING"
      kycHash := none
      frozen := false
      sanctioned := false
      balance := 0
      meta := [] }
  _writeJSON id acct
  setEvent (Event.AccountRegistered id)
  return "Account " ++ id ++ " registered"

/-- Operation `SubmitKYC(ctx, id, kycHash)`. -/
def SubmitKYC (id : String) (kycHash : String) : Tx String := do
  let a ← _readAccount id
  let a := { a with kycHash := some kycHash }
  let a := { a with kycStatus := "SUBMITTED" }
  _writeJSON id a
  setEvent (Event.KYCUploaded id)
  return "KYC submitted for " ++ id

/-- Operation `VerifyKYC(ctx, id)`. -/
def VerifyKYC (id : String) : Tx String := do
  let a ← _readAccount id
  let a := { a with kycStatus := "VERIFIED" }
  _writeJSON id a
  setEvent (Event.KYCVerified id)
  return "KYC verified for " ++ id

/-- Operation `FreezeAccount(ctx, id)`: returns early when the account is already frozen. -/
def FreezeAccount (id : String) : Tx String := do
  let a ← _readAccount id
  if a.frozen then return "Account " ++ id ++ " already frozen"
  let a := { a with frozen := true }
  _writeJSON id a
  setEvent (Event.AccountFrozen id)
  return "Account " ++ id ++ " frozen"

/-- Operation `UnfreezeAccount(ctx, id)`: returns early when the account is not frozen. -/
def UnfreezeAccount (id : String) : Tx String := do
  let a ← _readAccount id
  if !a.frozen then return "Account " ++ id ++ " is already unfrozen"
  let a := { a with frozen := false }
  _writeJSON id a
  setEvent (Event.AccountUnfrozen id)
  return "Account " ++ id ++ " unfrozen"

/-- Operation `SanctionAccount(ctx, id)`. -/
def SanctionAccount (id : String) : Tx String := do
  let a ← _readAccount id
  let a := { a with sanctioned := true }
  _writeJSON id a
  setEvent (Event.AccountSanctioned id)
  return "Account " ++ id ++ " sanctioned"

/-- Operation `UnsanctionAccount(ctx, id)`. -/
def UnsanctionAccount (id : String) : Tx String := do
  let a ← _readAccount id
  let a := { a with sanctioned := false }
  _writeJSON id a
  setEvent (Event.AccountUnsanctioned id)
  return "Account " ++ id ++ " unsanctioned"

/-- Operation `SetReserveReport(ctx, amountStr)`: the only guard is the MSP id of the caller. -/
def SetReserveReport (ctx : Ctx) (amountStr : Int) : Tx String := do
  let msp := _getMSPId ctx
  if msp ≠ "Org1MSP" then throwErr "Only issuer (Org1MSP) may set reserves"
  let amt := amountStr
  _writeReserves { value := amt, «by» := msp, ts := ctx.txTimestamp }
  setEvent (Event.ReserveUpdated amt)
  return "Reserves set to " ++ toString amt

/-- Operation `Mint(ctx, toId, amountStr)`. -/
def Mint (ctx : Ctx) (toId : String) (amountStr : Int) : Tx String := do
  let msp := _getMSPId ctx
  if msp ≠ "Org1MSP" then throwErr "Only issuer (Org1MSP) may mint"
  let amount := amountStr
  if amount ≤ 0 then throwErr "Mint amount must be positive"
  let supply ← _getSupply
  let reserves ← _getReserves
  let newSupply := supply + amount
  if newSupply > reserves then
    throwErr "Mint blocked: reserves would be below total supply"
  let toA ← _readAccount toId
  if toA.kycStatus ≠ "VERIFIED" then throwErr "Recipient must be KYC-VERIFIED"
  if toA.frozen || toA.sanctioned then throwErr "Recipient is frozen or sanctioned"
  let toA := { toA with balance := toA.balance + amount }
  _writeJSON toId toA
  _setSupply newSupply
  setEvent (Event.Mint toId amount newSupply)
  return "Minted " ++ toString amount ++ " to " ++ toId

/-- Operation `Transfer(ctx, fromId, toId, amountStr, travelRuleHash)`: the two records are read
separately and written one after the other, sender first. -/
def Transfer (ctx : Ctx) (fromId : String) (toId : String) (amountStr : Int)
    (travelRuleHash : String) : Tx String := do
  let amount := amountStr
  if amount ≤ 0 then throwErr "Amount must be positive"
  let fromA ← _readAccount fromId
  let toA ← _readAccount toId
  if fromA.kycStatus ≠ "VERIFIED" ∨ toA.kycStatus ≠ "VERIFIED" then
    throwErr "KYC not verified for sender or recipient"
  if fromA.frozen || toA.frozen then throwErr "One of the accounts is frozen"
  if fromA.sanctioned || toA.sanctioned then
    throwErr "Transfer blocked: sanctioned party"
  if fromA.balance < amount then throwErr "Insufficient balance"
  let fromA := { fromA with balance := fromA.balance - amount }
  let toA := { toA with balance := toA.balance + amount }
  _writeJSON fromId fromA
  _writeJSON toId toA
  let ev := Event.Transfer "USDwTransfer" fromId toId amount travelRuleHash
    ctx.txTimestamp ctx.txID
  setEvent ev
  return "Transferred " ++ toString amount ++ " from " ++ fromId ++ " to " ++ toId

/-- The two demo accounts of `InitLedger`. -/
def demoAccounts (issuerMSP : String) : List Account :=
  [ { id := "treasury"
      ownerMSP := issuerMSP
      kycStatus := "VERIFIED"
      kycHash := none
      frozen := false
      sanctioned := false
      balance := 0
      meta := [("role", "ISSUER_TREASURY")] },
    { id := "chetan"
      ownerMSP := issuerMSP
      kycStatus := "VERIFIED"
      kycHash := none
      frozen := false
      sanctioned := false
      balance := 0
      meta := [("role", "RETAIL")] } ]

/-- Operation `InitLedger(ctx)`: writes the demo accounts, a supply of 0 and reserves of 0. -/
def InitLedger (ctx : Ctx) : Tx String := do
  let issuerMSP := _getMSPId ctx
  for acc in demoAccounts issuerMSP do
    _writeJSON acc.id acc
  _setSupply 0
  _writeReserves { value := 0, «by» := issuerMSP, ts := ctx.txTimestamp }
  setEvent (Event.LedgerInitialized ((demoAccounts issuerMSP).map (fun a => a.id)))
  return "Initialized " ++ toString (demoAccounts issuerMSP).length ++ " accounts"

/-- Query `GetAccount(ctx, id)`. -/
def GetAccount (id : String) : Tx Account := do
  let a ← _readAccount id
  return a

/-- Query `GetSupply(ctx)`. -/
def GetSupply : Tx Int := do
  let s ← _getSupply
  return s

/-- Query `GetReserves(ctx)`. -/
def GetReserves : Tx Int := do
  let r ← _getReserves
  return r

/-- Query `GetStats(ctx)`: supply, reserves and the timestamp of the transaction. -/
def GetStats (ctx : Ctx) : Tx (Int × Int × Timestamp) := do
  let supply ← _getSupply
  let reserves ← _getReserves
  return (supply, reserves, ctx.txTimestamp)

/-- The account records of the world state, as `GetAllAccounts` collects them. -/
def GetAllAccounts : Tx (List Account) :=
  fun w => (Except.ok (w.ledger.accounts.map (fun e => e.2)), w)

/-! ## Invocations, commits and reachable states -/

/-- What an operation returns. -/
inductive Ret where
  | msg (s : String)
  | account (a : Account)
  | accounts (l : List Account)
  | amount (n : Int)
  | stats (supply : Int) (reserves : Int) (ts : Timestamp)
  deriving DecidableEq, Repr

/-- An invocation of the contract: the operation and its arguments. -/
inductive Call where
  | RegisterAccount (id : String)
  | SubmitKYC (id : String) (kycHash : String)
  | VerifyKYC (id : String)
  | FreezeAccount (id : String)
  | UnfreezeAccount (id : String)
  | SanctionAccount (id : String)
  | UnsanctionAccount (id : String)
  | SetReserveReport (amountStr : Int)
  | Mint (toId : String) (amountStr : Int)
  | Transfer (fromId : String) (toId : String) (amountStr : Int) (travelRuleHash : String)
  | InitLedger
  | GetAccount (id : String)
  | GetAllAccounts
  | GetSupply
  | GetReserves
  | GetStats
  deriving DecidableEq, Repr

/-- Dispatch of an invocation to the operation of the contract. -/
def invoke (ctx : Ctx) : Call → Tx Ret
  | Call.RegisterAccount id => do return Ret.msg (← RegisterAccount ctx id)
  | Call.SubmitKYC id kycHash => do return Ret.msg (← SubmitKYC id kycHash)
  | Call.VerifyKYC id => do return Ret.msg (← VerifyKYC id)
  | Call.FreezeAccount id => do return Ret.msg (← FreezeAccount id)
  | Call.UnfreezeAccount id => do return Ret.msg (← UnfreezeAccount id)
  | Call.SanctionAccount id => do return Ret.msg (← SanctionAccount id)
  | Call.UnsanctionAccount id => do return Ret.msg (← UnsanctionAccount id)
  | Call.SetReserveReport amountStr => do return Ret.msg (← SetReserveReport ctx amountStr)
  | Call.Mint toId amountStr => do return Ret.msg (← Mint ctx toId amountStr)
  | Call.Transfer fromId toId amountStr travelRuleHash => do
      return Ret.msg (← Transfer ctx fromId toId amountStr travelRuleHash)
  | Call.InitLedger => do return Ret.msg (← InitLedger ctx)
  | Call.GetAccount id => do return Ret.account (← GetAccount id)
  | Call.GetAllAccounts => do return Ret.accounts (← GetAllAccounts)
  | Call.GetSupply => do return Ret.amount (← GetSupply)
  | Call.GetReserves => do return Ret.amount (← GetReserves)
  | Call.GetStats => do
      let r ← GetStats ctx
      return Ret.stats r.1 r.2.1 r.2.2

/-- A transaction starts on the committed world state with no event set. -/
def begin (s : Ledger) : TxState := { ledger := s, event := none }

/-- The world state after a transaction: the staged writes are committed when the
operation returns, and discarded when it throws. -/
def commit {α : Type} (t : Tx α) (s : Ledger) : Ledger :=
  match t (begin s) with
  | (Except.ok _, w) => w.ledger
  | (Except.error _, _) => s

/-- The result an operation gives on a committed world state. -/
def result {α : Type} (t : Tx α) (s : Ledger) : Except String α := (t (begin s)).1

/-- The ledger before any transaction. -/
def emptyLedger : Ledger := { accounts := [], supply := none, reserves := none }

/-- The states reachable from the empty ledger by invocations that satisfy `allowed`. -/
inductive ReachableVia (allowed : Ledger → Ctx → Call → Prop) : Ledger → Prop where
  | init : ReachableVia allowed emptyLedger
  | step (s : Ledger) (ctx : Ctx) (c : Call) :
      ReachableVia allowed s → allowed s ctx c → ReachableVia allowed (commit (invoke ctx c) s)

/-- The states reachable from the empty ledger by any invocations. -/
def Reachable (s : Ledger) : Prop := ReachableVia (fun _ _ _ => True) s

/-- The world state after a sequence of invocations, each committed in turn. -/
def run (calls : List (Ctx × Call)) (s : Ledger) : Ledger :=
  calls.foldl (fun s c => commit (invoke c.1 c.2) s) s

/-- Every invocation of the sequence satisfies `allowed` in the state it is made in. -/
def allowedAlong (allowed : Ledger → Ctx → Call → Prop) : List (Ctx × Call) → Ledger → Prop
  | [], _ => True
  | c :: cs, s => allowed s c.1 c.2 ∧ allowedAlong allowed cs (commit (invoke c.1 c.2) s)

/-- A caller of the issuer organisation. -/
def issuer : Ctx := { mspId := some "Org1MSP", txTimestamp := ⟨1700000000, 0⟩, txID := "tx" }

/-- A caller of another organisation. -/
def org2 : Ctx := { mspId := some "Org2MSP", txTimestamp := ⟨1700000000, 0⟩, txID := "tx" }

/-! ## Observations and the vocabulary of the statements -/

/-- The sum of the balances of all account records. -/
def totalBalance (s : Ledger) : Int := (s.accounts.map (fun e => e.2.balance)).sum

/-- The balance stored for `id`, `0` when there is no record. -/
def balanceOf (s : Ledger) (id : String) : Int :=
  match getState id s.accounts with
  | some a => a.balance
  | none => 0

/-- The world state with one account record written. -/
def withAccount (s : Ledger) (id : String) (a : Account) : Ledger :=
  { accounts := putState id a s.accounts
    supply := s.supply
    reserves := s.reserves }

/-- State of a transaction after `Mint` has staged its writes and its event. -/
def afterMint (toId : String) (amount : Int) (a : Account) (w : TxState) : TxState :=
  { ledger :=
      { accounts := putState toId { a with balance := a.balance + amount } w.ledger.accounts
        supply := some { value := supplyValue w.ledger + amount }
        reserves := w.ledger.reserves }
    event := some (Event.Mint toId amount (supplyValue w.ledger + amount)) }

/-- State of a transaction after `Transfer` has staged its two writes and its event. -/
def afterTransfer (ctx : Ctx) (fromId toId : String) (amount : Int) (travelRuleHash : String)
    (fromA toA : Account) (w : TxState) : TxState :=
  { ledger :=
      withAccount (withAccount w.ledger fromId { fromA with balance := fromA.balance - amount })
        toId { toA with balance := toA.balance + amount }
    event := some (Event.Transfer "USDwTransfer" fromId toId amount travelRuleHash
      ctx.txTimestamp ctx.txID) }

/-- State of a transaction after one account record has been written and an event set. -/
def stage (id : String) (a : Account) (e : Event) (w : TxState) : TxState :=
  { ledger := withAccount w.ledger id a
    event := some e }

/-- The condition under which `Mint` returns: the guards of the operation, in its order. -/
def mintOk (ctx : Ctx) (amount : Int) (s : Ledger) (a : Account) : Prop :=
  _getMSPId ctx = "Org1MSP" ∧ 0 < amount ∧ supplyValue s + amount ≤ reservesValue s ∧
    a.kycStatus = "VERIFIED" ∧ a.frozen = false ∧ a.sanctioned = false

instance (ctx : Ctx) (amount : Int) (s : Ledger) (a : Account) :
    Decidable (mintOk ctx amount s a) := by
  unfold mintOk
  exact inferInstance

/-- The condition under which `Transfer` returns, given the two records it read. -/
def transferOk (amount : Int) (fromA toA : Account) : Prop :=
  0 < amount ∧ fromA.kycStatus = "VERIFIED" ∧ toA.kycStatus = "VERIFIED" ∧
    fromA.frozen = false ∧ toA.frozen = false ∧
    fromA.sanctioned = false ∧ toA.sanctioned = false ∧ amount ≤ fromA.balance

instance (amount : Int) (fromA toA : Account) : Decidable (transferOk amount fromA toA) := by
  unfold transferOk
  exact inferInstance

/-- The guard on a step: a `SetReserveReport` of the issuer reports at least the supply. -/
def reportCoversSupply (s : Ledger) (ctx : Ctx) : Call → Prop
  | Call.SetReserveReport amount => _getMSPId ctx = "Org1MSP" → supplyValue s ≤ amount
  | _ => True

instance (s : Ledger) (ctx : Ctx) (c : Call) : Decidable (reportCoversSupply s ctx c) := by
  cases c <;> simp only [reportCoversSupply] <;> exact inferInstance

/-- The trace of the witness of C1: provisioning, a report of 100, a mint of 100. -/
def fullyBackedTrace : List (Ctx × Call) :=
  [(issuer, Call.InitLedger), (issuer, Call.SetReserveReport 100),
    (issuer, Call.Mint "chetan" 100)]

/-- The trace of the counterexample of C1: after the mint, the issuer reports 0. -/
def loweredReportTrace : List (Ctx × Call) :=
  [(issuer, Call.InitLedger), (issuer, Call.SetReserveReport 100),
    (issuer, Call.Mint "chetan" 100), (issuer, Call.SetReserveReport 0)]

/-- No two records of the store share a key. -/
def KeysNodup (l : List (String × Account)) : Prop := (l.map Prod.fst).Nodup

instance (l : List (String × Account)) : Decidable (KeysNodup l) := by
  unfold KeysNodup
  exact inferInstance

/-- The conservation invariant, with the distinctness of keys it is proved along with. -/
def Conserved (s : Ledger) : Prop := KeysNodup s.accounts ∧ supplyValue s = totalBalance s

instance (s : Ledger) : Decidable (Conserved s) := by
  unfold Conserved
  exact inferInstance

/-- The guard on a step: `InitLedger` is invoked only when no account other than the two
demo accounts holds a balance, and `Transfer` only between distinct accounts. -/
def conservingCall (s : Ledger) (_ctx : Ctx) : Call → Prop
  | Call.InitLedger =>
      ∀ e ∈ s.accounts, e.1 ≠ "treasury" → e.1 ≠ "chetan" → e.2.balance = 0
  | Call.Transfer fromId toId _ _ => fromId ≠ toId
  | _ => True

instance (s : Ledger) (ctx : Ctx) (c : Call) : Decidable (conservingCall s ctx c) := by
  cases c <;> simp only [conservingCall] <;> exact inferInstance

instance decidableAllowedAlong (allowed : Ledger → Ctx → Call → Prop)
    [inst : ∀ s ctx c, Decidable (allowed s ctx c)] :
    ∀ (cs : List (Ctx × Call)) (s : Ledger), Decidable (allowedAlong allowed cs s)
  | [], _ => isTrue trivial
  | c :: cs, s =>
    have := decidableAllowedAlong allowed cs (commit (invoke c.1 c.2) s)
    by unfold allowedAlong; exact inferInstance

/-- The trace of the witness of C2: provisioning, a report, a mint and a transfer between
the two demo accounts. -/
def provisionedTrace : List (Ctx × Call) :=
  [(issuer, Call.InitLedger), (issuer, Call.SetReserveReport 1000),
    (issuer, Call.Mint "chetan" 500), (org2, Call.Transfer "chetan" "treasury" 200 "")]

/-- The trace of the counterexample of C2: `alice` is onboarded and receives 500, then
`InitLedger` is invoked on the populated ledger. -/
def reprovisionedTrace : List (Ctx × Call) :=
  [(org2, Call.RegisterAccount "alice"), (org2, Call.SubmitKYC "alice" "h1"),
    (org2, Call.VerifyKYC "alice"), (issuer, Call.SetReserveReport 1000),
    (issuer, Call.Mint "alice" 500), (issuer, Call.InitLedger)]

/-- A ledger in which `alice` is onboarded, verified and holds 100. -/
def aliceHolds100 : Ledger :=
  run [(org2, Call.RegisterAccount "alice"), (org2, Call.SubmitKYC "alice" "h1"),
    (org2, Call.VerifyKYC "alice"), (issuer, Call.SetReserveReport 100),
    (issuer, Call.Mint "alice" 100)] emptyLedger

/-- A ledger in which the demo account `chetan` holds 500 of a reported 1000. -/
def chetanHolds500 : Ledger :=
  run [(issuer, Call.InitLedger), (issuer, Call.SetReserveReport 1000),
    (issuer, Call.Mint "chetan" 500)] emptyLedger

/-- A ledger with Reserves 100 and Supply 90, all held by the demo account `chetan`. -/
def supply90of100 : Ledger :=
  run [(issuer, Call.InitLedger), (issuer, Call.SetReserveReport 100),
    (issuer, Call.Mint "chetan" 90)] emptyLedger

/-- A ledger with Reserves 1000 in which `alice` is registered and still PENDING, the demo
account `treasury` is frozen and the demo account `chetan` is sanctioned. -/
def gatedLedger : Ledger :=
  run [(issuer, Call.InitLedger), (issuer, Call.SetReserveReport 1000),
    (org2, Call.RegisterAccount "alice"), (org2, Call.FreezeAccount "treasury"),
    (org2, Call.SanctionAccount "chetan")] emptyLedger

/-- The ledger of the scenario: `alice` is verified and holds 500 of a reported 1000, `bob` is
verified and holds nothing. -/
def aliceAndBob : Ledger :=
  run [(org2, Call.RegisterAccount "alice"), (org2, Call.SubmitKYC "alice" "h1"),
    (org2, Call.VerifyKYC "alice"), (issuer, Call.SetReserveReport 1000),
    (issuer, Call.Mint "alice" 500), (org2, Call.RegisterAccount "bob"),
    (org2, Call.SubmitKYC "bob" "h2"), (org2, Call.VerifyKYC "bob")] emptyLedger

/-- The ledger of the scenario after `SanctionAccount(alice)`. -/
def aliceSanctioned : Ledger := commit (SanctionAccount "alice") aliceAndBob

/-- The ledger of the scenario before the mint: `alice` is verified, Reserves are 1000. -/
def aliceVerified : Ledger :=
  run [(org2, Call.RegisterAccount "alice"), (org2, Call.SubmitKYC "alice" "h1"),
    (org2, Call.VerifyKYC "alice"), (issuer, Call.SetReserveReport 1000)] emptyLedger

/-- A caller whose identity carries no `getMSPID`. -/
def anonymous : Ctx := { mspId := none, txTimestamp := ⟨1700000000, 0⟩, txID := "tx" }

/-- Every account record holds a balance of 0 or more. -/
def NonNegBalances (s : Ledger) : Prop := ∀ e ∈ s.accounts, 0 ≤ e.2.balance

instance (s : Ledger) : Decidable (NonNegBalances s) := by
  unfold NonNegBalances
  exact inferInstance

/-- The store holds a record for `id` whose kycStatus is VERIFIED. -/
def VerifiedIn (l : List (String × Account)) (id : String) : Prop :=
  ∃ a, getState id l = some a ∧ a.kycStatus = "VERIFIED"

instance (l : List (String × Account)) (id : String) : Decidable (VerifiedIn l id) :=
  match h : getState id l with
  | none => isFalse (fun ⟨_, ha, _⟩ => nomatch h.symm.trans ha)
  | some a =>
    if hk : a.kycStatus = "VERIFIED" then isTrue ⟨a, h, hk⟩
    else isFalse (fun ⟨_, ha, hk'⟩ => hk (Option.some.inj (h.symm.trans ha) ▸ hk'))

/-- A ledger in which `alice` is registered and nothing else has happened: her kycStatus is
PENDING and she has no kycHash. -/
def aliceRegistered : Ledger := run [(org2, Call.RegisterAccount "alice")] emptyLedger

/-- The invocations other than `Mint`, `Transfer` and `InitLedger`. -/
def keepsBalances : Call → Prop
  | Call.Mint _ _ => False
  | Call.Transfer _ _ _ _ => False
  | Call.InitLedger => False
  | _ => True

instance (c : Call) : Decidable (keepsBalances c) := by
  cases c <;> simp only [keepsBalances] <;> exact inferInstance

/-- The store holds a record for `id` whose balance is `b`. -/
def HoldsBalance (l : List (String × Account)) (id : String) (b : Int) : Prop :=
  ∃ a, getState id l = some a ∧ a.balance = b

instance (l : List (String × Account)) (id : String) (b : Int) :
    Decidable (HoldsBalance l id b) :=
  match h : getState id l with
  | none => isFalse (fun ⟨_, ha, _⟩ => nomatch h.symm.trans ha)
  | some a =>
    if hk : a.balance = b then isTrue ⟨a, h, hk⟩
    else isFalse (fun ⟨_, ha, hk'⟩ => hk (Option.some.inj (h.symm.trans ha) ▸ hk'))

/-- The guard on a step of the normal operating path: no `InitLedger`, and `Transfer` only
between distinct accounts; every other operation (and every query) is allowed. -/
def normalPathCall (_s : Ledger) (_ctx : Ctx) : Call → Prop
  | Call.InitLedger => False
  | Call.Transfer fromId toId _ _ => fromId ≠ toId
  | _ => True

instance (s : Ledger) (ctx : Ctx) (c : Call) : Decidable (normalPathCall s ctx c) := by
  cases c <;> simp only [normalPathCall] <;> exact inferInstance

/-- The trace of the scenario: `alice` and `bob` are onboarded, `alice` is minted 500 of a
reported 1000 and transfers 200 to `bob`. -/
def scenarioTrace : List (Ctx × Call) :=
  [(org2, Call.RegisterAccount "alice"), (org2, Call.SubmitKYC "alice" "h1"),
    (org2, Call.VerifyKYC "alice"), (issuer, Call.SetReserveReport 1000),
    (issuer, Call.Mint "alice" 500), (org2, Call.RegisterAccount "bob"),
    (org2, Call.SubmitKYC "bob" "h2"), (org2, Call.VerifyKYC "bob"),
    (org2, Call.Transfer "alice" "bob" 200 "")]

/-- A ledger in which `alice` is verified and frozen. -/
def aliceFrozen : Ledger := commit (FreezeAccount "alice") aliceVerified

/-! ## The store -/

theorem getState_putState_same (id : String) (a : Account) (l : List (String × Account)) :
    getState id (putState id a l) = some a := by
  induction l with
  | nil => simp [putState, getState]
  | cons e rest ih =>
    obtain ⟨k, v⟩ := e
    by_cases h : k = id
    · simp [putState, getState, h]
    · simp [putState, getState, h, ih]

theorem getState_putState_ne (id id' : String) (a : Account) (l : List (String × Account))
    (hne : id' ≠ id) : getState id' (putState id a l) = getState id' l := by
  induction l with
  | nil => simp [putState, getState, Ne.symm hne]
  | cons e rest ih =>
    obtain ⟨k, v⟩ := e
    by_cases h : k = id
    · subst h
      simp [putState, getState, Ne.symm hne]
    · by_cases h' : k = id'
      · subst h'
        simp [putState, getState, h]
      · simp [putState, getState, h, h', ih]

theorem sum_putState (id : String) (a : Account) (l : List (String × Account)) :
    ((putState id a l).map (fun e => e.2.balance)).sum
      = (l.map (fun e => e.2.balance)).sum
        - (match getState id l with
           | some b => b.balance
           | none => 0)
        + a.balance := by
  induction l with
  | nil => simp [putState, getState]
  | cons e rest ih =>
    obtain ⟨k, v⟩ := e
    by_cases h : k = id
    · simp [putState, getState, h, add_comm]
    · simp [putState, getState, h, ih]
      ring

/-! ## Closed forms of the operations -/

theorem Mint_eq (ctx : Ctx) (toId : String) (amount : Int) (w : TxState) :
    Mint ctx toId amount w =
      if _getMSPId ctx ≠ "Org1MSP" then (Except.error "Only issuer (Org1MSP) may mint", w)
      else if amount ≤ 0 then (Except.error "Mint amount must be positive", w)
      else if supplyValue w.ledger + amount > reservesValue w.ledger then
        (Except.error "Mint blocked: reserves would be below total supply", w)
      else match getState toId w.ledger.accounts with
        | none => (Except.error ("Account " ++ toId ++ " not found"), w)
        | some a =>
          if a.kycStatus ≠ "VERIFIED" then (Except.error "Recipient must be KYC-VERIFIED", w)
          else if a.frozen = true ∨ a.sanctioned = true then
            (Except.error "Recipient is frozen or sanctioned", w)
          else (Except.ok ("Minted " ++ toString amount ++ " to " ++ toId),
            afterMint toId amount a w) := by
  by_cases h1 : _getMSPId ctx = "Org1MSP"
  · by_cases h2 : amount ≤ 0
    · simp [Mint, h1, h2, bind, throwErr]
    · by_cases h3 : supplyValue w.ledger + amount > reservesValue w.ledger
      · simp [Mint, h1, h2, h3, bind, throwErr, pure, _getSupply, _getReserves]
      · cases h4 : getState toId w.ledger.accounts with
        | none =>
          simp [Mint, h1, h2, h3, h4, bind, throwErr, pure, _getSupply, _getReserves,
            _readAccount, _readJSON, stubGetState]
        | some a =>
          by_cases h5 : a.kycStatus = "VERIFIED"
          · by_cases h6 : a.frozen = true ∨ a.sanctioned = true
            · simp [Mint, h1, h2, h3, h4, h5, h6, bind, throwErr, pure, _getSupply,
                _getReserves, _readAccount, _readJSON, stubGetState]
            · simp [Mint, h1, h2, h3, h4, h5, h6, bind, throwErr, pure, _getSupply,
                _getReserves, _readAccount, _readJSON, stubGetState, _writeJSON, _setSupply,
                setEvent, afterMint]
          · simp [Mint, h1, h2, h3, h4, h5, bind, throwErr, pure, _getSupply,
              _getReserves, _readAccount, _readJSON, stubGetState]
  · simp [Mint, h1, bind, throwErr]

theorem Transfer_eq (ctx : Ctx) (fromId toId : String) (amount : Int) (travelRuleHash : String)
    (w : TxState) :
    Transfer ctx fromId toId amount travelRuleHash w =
      if amount ≤ 0 then (Except.error "Amount must be positive", w)
      else match getState fromId w.ledger.accounts with
        | none => (Except.error ("Account " ++ fromId ++ " not found"), w)
        | some fromA =>
          match getState toId w.ledger.accounts with
          | none => (Except.error ("Account " ++ toId ++ " not found"), w)
          | some toA =>
            if fromA.kycStatus ≠ "VERIFIED" ∨ toA.kycStatus ≠ "VERIFIED" then
              (Except.error "KYC not verified for sender or recipient", w)
            else if fromA.frozen = true ∨ toA.frozen = true then
              (Except.error "One of the accounts is frozen", w)
            else if fromA.sanctioned = true ∨ toA.sanctioned = true then
              (Except.error "Transfer blocked: sanctioned party", w)
            else if fromA.balance < amount then (Except.error "Insufficient balance", w)
            else (Except.ok ("Transferred " ++ toString amount ++ " from " ++ fromId ++ " to "
              ++ toId), afterTransfer ctx fromId toId amount travelRuleHash fromA toA w) := by
  by_cases h1 : amount ≤ 0
  · simp [Transfer, h1, bind, throwErr]
  · cases h2 : getState fromId w.ledger.accounts with
    | none =>
      simp [Transfer, h1, h2, bind, throwErr, pure, _readAccount, _readJSON, stubGetState]
    | some fromA =>
      cases h3 : getState toId w.ledger.accounts with
      | none =>
        simp [Transfer, h1, h2, h3, bind, throwErr, pure, _readAccount, _readJSON,
          stubGetState]
      | some toA =>
        by_cases h4 : fromA.kycStatus ≠ "VERIFIED" ∨ toA.kycStatus ≠ "VERIFIED"
        · simp [Transfer, h1, h2, h3, h4, bind, throwErr, pure, _readAccount, _readJSON,
            stubGetState]
        · by_cases h5 : fromA.frozen = true ∨ toA.frozen = true
          · simp [Transfer, h1, h2, h3, h4, h5, bind, throwErr, pure, _readAccount, _readJSON,
              stubGetState]
          · by_cases h6 : fromA.sanctioned = true ∨ toA.sanctioned = true
            · simp [Transfer, h1, h2, h3, h4, h5, h6, bind, throwErr, pure, _readAccount,
                _readJSON, stubGetState]
            · by_cases h7 : fromA.balance < amount
              · simp [Transfer, h1, h2, h3, h4, h5, h6, h7, bind, throwErr, pure,
                  _readAccount, _readJSON, stubGetState]
              · simp [Transfer, h1, h2, h3, h4, h5, h6, h7, bind, throwErr, pure,
                  _readAccount, _readJSON, stubGetState, _writeJSON, setEvent, afterTransfer,
                  withAccount]

theorem SetReserveReport_eq (ctx : Ctx) (amount : Int) (w : TxState) :
    SetReserveReport ctx amount w =
      if _getMSPId ctx ≠ "Org1MSP" then
        (Except.error "Only issuer (Org1MSP) may set reserves", w)
      else (Except.ok ("Reserves set to " ++ toString amount),
        { ledger :=
            { accounts := w.ledger.accounts
              supply := w.ledger.supply
              reserves := some { value := amount, «by» := _getMSPId ctx, ts := ctx.txTimestamp } }
          event := some (Event.ReserveUpdated amount) }) := by
  by_cases h1 : _getMSPId ctx = "Org1MSP"
  · simp [SetReserveReport, h1, bind, throwErr, pure, _writeReserves, setEvent]
  · simp [SetReserveReport, h1, bind, throwErr]

theorem InitLedger_eq (ctx : Ctx) (w : TxState) :
    InitLedger ctx w =
      (Except.ok "Initialized 2 accounts",
        { ledger :=
            { accounts :=
                putState "chetan"
                  { id := "chetan", ownerMSP := _getMSPId ctx, kycStatus := "VERIFIED",
                    kycHash := none, frozen := false, sanctioned := false, balance := 0,
                    meta := [("role", "RETAIL")] }
                  (putState "treasury"
                    { id := "treasury", ownerMSP := _getMSPId ctx, kycStatus := "VERIFIED",
                      kycHash := none, frozen := false, sanctioned := false, balance := 0,
                      meta := [("role", "ISSUER_TREASURY")] }
                    w.ledger.accounts)
              supply := some { value := 0 }
              reserves := some { value := 0, «by» := _getMSPId ctx, ts := ctx.txTimestamp } }
          event := some (Event.LedgerInitialized ["treasury", "chetan"]) }) := by
  simp [InitLedger, demoAccounts, bind, pure, forIn, _writeJSON, _setSupply, _writeReserves,
    setEvent]
  rfl

theorem RegisterAccount_eq (ctx : Ctx) (id : String) (w : TxState) :
    RegisterAccount ctx id w =
      match getState id w.ledger.accounts with
      | some _ => (Except.ok ("Account " ++ id ++ " already exists"), w)
      | none => (Except.ok ("Account " ++ id ++ " registered"),
          stage id
            { id := id, ownerMSP := _getMSPId ctx, kycStatus := "PENDING", kycHash := none,
              frozen := false, sanctioned := false, balance := 0, meta := [] }
            (Event.AccountRegistered id) w) := by
  cases h : getState id w.ledger.accounts with
  | none => simp [RegisterAccount, h, bind, pure, stubGetState, _writeJSON, setEvent, stage, withAccount]
  | some a => simp [RegisterAccount, h, bind, pure, stubGetState]

theorem SubmitKYC_eq (id kycHash : String) (w : TxState) :
    SubmitKYC id kycHash w =
      match getState id w.ledger.accounts with
      | none => (Except.error ("Account " ++ id ++ " not found"), w)
      | some a => (Except.ok ("KYC submitted for " ++ id),
          stage id { a with kycHash := some kycHash, kycStatus := "SUBMITTED" }
            (Event.KYCUploaded id) w) := by
  cases h : getState id w.ledger.accounts with
  | none => simp [SubmitKYC, h, bind, pure, throwErr, _readAccount, _readJSON, stubGetState]
  | some a =>
    simp [SubmitKYC, h, bind, pure, _readAccount, _readJSON, stubGetState, _writeJSON,
      setEvent, stage, withAccount]

theorem VerifyKYC_eq (id : String) (w : TxState) :
    VerifyKYC id w =
      match getState id w.ledger.accounts with
      | none => (Except.error ("Account " ++ id ++ " not found"), w)
      | some a => (Except.ok ("KYC verified for " ++ id),
          stage id { a with kycStatus := "VERIFIED" } (Event.KYCVerified id) w) := by
  cases h : getState id w.ledger.accounts with
  | none => simp [VerifyKYC, h, bind, pure, throwErr, _readAccount, _readJSON, stubGetState]
  | some a =>
    simp [VerifyKYC, h, bind, pure, _readAccount, _readJSON, stubGetState, _writeJSON,
      setEvent, stage, withAccount]

theorem FreezeAccount_eq (id : String) (w : TxState) :
    FreezeAccount id w =
      match getState id w.ledger.accounts with
      | none => (Except.error ("Account " ++ id ++ " not found"), w)
      | some a =>
        if a.frozen = true then (Except.ok ("Account " ++ id ++ " already frozen"), w)
        else (Except.ok ("Account " ++ id ++ " frozen"),
          stage id { a with frozen := true } (Event.AccountFrozen id) w) := by
  cases h : getState id w.ledger.accounts with
  | none =>
    simp [FreezeAccount, h, bind, pure, throwErr, _readAccount, _readJSON, stubGetState]
  | some a =>
    by_cases hf : a.frozen = true
    · simp [FreezeAccount, h, hf, bind, pure, _readAccount, _readJSON, stubGetState]
    · simp [FreezeAccount, h, hf, bind, pure, _readAccount, _readJSON, stubGetState,
        _writeJSON, setEvent, stage, withAccount]

theorem UnfreezeAccount_eq (id : String) (w : TxState) :
    UnfreezeAccount id w =
      match getState id w.ledger.accounts with
      | none => (Except.error ("Account " ++ id ++ " not found"), w)
      | some a =>
        if a.frozen = false then (Except.ok ("Account " ++ id ++ " is already unfrozen"), w)
        else (Except.ok ("Account " ++ id ++ " unfrozen"),
          stage id { a with frozen := false } (Event.AccountUnfrozen id) w) := by
  cases h : getState id w.ledger.accounts with
  | none =>
    simp [UnfreezeAccount, h, bind, pure, throwErr, _readAccount, _readJSON, stubGetState]
  | some a =>
    by_cases hf : a.frozen = false
    · simp [UnfreezeAccount, h, hf, bind, pure, _readAccount, _readJSON, stubGetState]
    · simp [UnfreezeAccount, h, hf, bind, pure, _readAccount, _readJSON, stubGetState,
        _writeJSON, setEvent, stage, withAccount]

theorem SanctionAccount_eq (id : String) (w : TxState) :
    SanctionAccount id w =
      match getState id w.ledger.accounts with
      | none => (Except.error ("Account " ++ id ++ " not found"), w)
      | some a => (Except.ok ("Account " ++ id ++ " sanctioned"),
          stage id { a with sanctioned := true } (Event.AccountSanctioned id) w) := by
  cases h : getState id w.ledger.accounts with
  | none =>
    simp [SanctionAccount, h, bind, pure, throwErr, _readAccount, _readJSON, stubGetState]
  | some a =>
    simp [SanctionAccount, h, bind, pure, _readAccount, _readJSON, stubGetState, _writeJSON,
      setEvent, stage, withAccount]

theorem UnsanctionAccount_eq (id : String) (w : TxState) :
    UnsanctionAccount id w =
      match getState id w.ledger.accounts with
      | none => (Except.error ("Account " ++ id ++ " not found"), w)
      | some a => (Except.ok ("Account " ++ id ++ " unsanctioned"),
          stage id { a with sanctioned := false } (Event.AccountUnsanctioned id) w) := by
  cases h : getState id w.ledger.accounts with
  | none =>
    simp [UnsanctionAccount, h, bind, pure, throwErr, _readAccount, _readJSON, stubGetState]
  | some a =>
    simp [UnsanctionAccount, h, bind, pure, _readAccount, _readJSON, stubGetState,
      _writeJSON, setEvent, stage, withAccount]

/-! ## Committed transitions -/

theorem commit_bind_pure {α β : Type} (t : Tx α) (f : α → β) (s : Ledger) :
    commit (t >>= fun r => pure (f r)) s = commit t s := by
  unfold commit
  simp only [bind, pure]
  rcases h : t (begin s) with ⟨r, w⟩
  cases r <;> rfl

theorem commit_RegisterAccount (ctx : Ctx) (id : String) (s : Ledger) :
    commit (RegisterAccount ctx id) s =
      match getState id s.accounts with
      | some _ => s
      | none => withAccount s id
          { id := id, ownerMSP := _getMSPId ctx, kycStatus := "PENDING", kycHash := none,
            frozen := false, sanctioned := false, balance := 0, meta := [] } := by
  simp only [commit, RegisterAccount_eq, begin]
  cases getState id s.accounts <;> simp [stage]

theorem commit_SubmitKYC (id kycHash : String) (s : Ledger) :
    commit (SubmitKYC id kycHash) s =
      match getState id s.accounts with
      | none => s
      | some a => withAccount s id { a with kycHash := some kycHash, kycStatus := "SUBMITTED" } := by
  simp only [commit, SubmitKYC_eq, begin]
  cases getState id s.accounts <;> simp [stage]

theorem commit_VerifyKYC (id : String) (s : Ledger) :
    commit (VerifyKYC id) s =
      match getState id s.accounts with
      | none => s
      | some a => withAccount s id { a with kycStatus := "VERIFIED" } := by
  simp only [commit, VerifyKYC_eq, begin]
  cases getState id s.accounts <;> simp [stage]

theorem commit_FreezeAccount (id : String) (s : Ledger) :
    commit (FreezeAccount id) s =
      match getState id s.accounts with
      | none => s
      | some a => if a.frozen = true then s else withAccount s id { a with frozen := true } := by
  simp only [commit, FreezeAccount_eq, begin]
  cases h : getState id s.accounts with
  | none => simp
  | some a => by_cases hf : a.frozen = true <;> simp [stage, hf]

theorem commit_UnfreezeAccount (id : String) (s : Ledger) :
    commit (UnfreezeAccount id) s =
      match getState id s.accounts with
      | none => s
      | some a => if a.frozen = false then s else withAccount s id { a with frozen := false } := by
  simp only [commit, UnfreezeAccount_eq, begin]
  cases h : getState id s.accounts with
  | none => simp
  | some a => by_cases hf : a.frozen = false <;> simp [stage, hf]

theorem commit_SanctionAccount (id : String) (s : Ledger) :
    commit (SanctionAccount id) s =
      match getState id s.accounts with
      | none => s
      | some a => withAccount s id { a with sanctioned := true } := by
  simp only [commit, SanctionAccount_eq, begin]
  cases getState id s.accounts <;> simp [stage]

theorem commit_UnsanctionAccount (id : String) (s : Ledger) :
    commit (UnsanctionAccount id) s =
      match getState id s.accounts with
      | none => s
      | some a => withAccount s id { a with sanctioned := false } := by
  simp only [commit, UnsanctionAccount_eq, begin]
  cases getState id s.accounts <;> simp [stage]

theorem commit_SetReserveReport (ctx : Ctx) (amount : Int) (s : Ledger) :
    commit (SetReserveReport ctx amount) s =
      if _getMSPId ctx ≠ "Org1MSP" then s
      else
        { accounts := s.accounts
          supply := s.supply
          reserves := some { value := amount, «by» := _getMSPId ctx, ts := ctx.txTimestamp } } := by
  simp only [commit, SetReserveReport_eq, begin]
  by_cases h : _getMSPId ctx = "Org1MSP" <;> simp [h]

theorem commit_Mint (ctx : Ctx) (toId : String) (amount : Int) (s : Ledger) :
    commit (Mint ctx toId amount) s =
      match getState toId s.accounts with
      | none => s
      | some a =>
        if mintOk ctx amount s a then
          { accounts := putState toId { a with balance := a.balance + amount } s.accounts
            supply := some { value := supplyValue s + amount }
            reserves := s.reserves }
        else s := by
  simp only [commit, Mint_eq, begin, mintOk]
  by_cases h1 : _getMSPId ctx = "Org1MSP"
  · by_cases h2 : amount ≤ 0
    · have h2' : ¬ 0 < amount := not_lt.mpr h2
      cases getState toId s.accounts <;> simp [h1, h2, h2']
    · have h2' : 0 < amount := not_le.mp h2
      by_cases h3 : supplyValue s + amount > reservesValue s
      · have h3' : ¬ supplyValue s + amount ≤ reservesValue s := not_le.mpr h3
        cases getState toId s.accounts <;> simp [h1, h2, h2', h3, h3']
      · have h3' : supplyValue s + amount ≤ reservesValue s := not_lt.mp h3
        cases h4 : getState toId s.accounts with
        | none => simp [h1, h2, h3]
        | some a =>
          by_cases h5 : a.kycStatus = "VERIFIED"
          · by_cases h6 : a.frozen = true ∨ a.sanctioned = true
            · rcases h6 with h6 | h6 <;> simp [h1, h2, h2', h3, h3', h5, h6]
            · have h6' := h6
              simp only [not_or, Bool.not_eq_true] at h6'
              simp [h1, h2, h2', h3, h3', h5, h6, h6'.1, h6'.2, afterMint]
          · simp [h1, h2, h2', h3, h3', h5]
  · cases getState toId s.accounts <;> simp [h1]

theorem Transfer_ok (ctx : Ctx) (fromId toId : String) (amount : Int) (travelRuleHash : String)
    (w : TxState) (fromA toA : Account)
    (hf : getState fromId w.ledger.accounts = some fromA)
    (ht : getState toId w.ledger.accounts = some toA)
    (hok : transferOk amount fromA toA) :
    Transfer ctx fromId toId amount travelRuleHash w =
      (Except.ok ("Transferred " ++ toString amount ++ " from " ++ fromId ++ " to " ++ toId),
        afterTransfer ctx fromId toId amount travelRuleHash fromA toA w) := by
  obtain ⟨h1, h2, h3, h4, h5, h6, h7, h8⟩ := hok
  rw [Transfer_eq]
  simp [hf, ht, h1, h2, h3, h4, h5, h6, h7, h8, not_le.mpr h1, not_lt.mpr h8]

theorem Transfer_error (ctx : Ctx) (fromId toId : String) (amount : Int)
    (travelRuleHash : String) (w : TxState) (fromA toA : Account)
    (hf : getState fromId w.ledger.accounts = some fromA)
    (ht : getState toId w.ledger.accounts = some toA)
    (hok : ¬ transferOk amount fromA toA) :
    ∃ e, Transfer ctx fromId toId amount travelRuleHash w = (Except.error e, w) := by
  rw [Transfer_eq]
  simp only [hf, ht]
  split_ifs with h1 h2 h3 h4 h5
  · exact ⟨_, rfl⟩
  · exact ⟨_, rfl⟩
  · exact ⟨_, rfl⟩
  · exact ⟨_, rfl⟩
  · exact ⟨_, rfl⟩
  · exfalso
    apply hok
    simp only [not_or, not_not, Bool.not_eq_true] at h2 h3 h4
    exact ⟨not_le.mp h1, h2.1, h2.2, h3.1, h3.2, h4.1, h4.2, not_lt.mp h5⟩

theorem commit_Transfer (ctx : Ctx) (fromId toId : String) (amount : Int)
    (travelRuleHash : String) (s : Ledger) :
    commit (Transfer ctx fromId toId amount travelRuleHash) s =
      match getState fromId s.accounts, getState toId s.accounts with
      | some fromA, some toA =>
        if transferOk amount fromA toA then
          withAccount (withAccount s fromId { fromA with balance := fromA.balance - amount })
            toId { toA with balance := toA.balance + amount }
        else s
      | _, _ => s := by
  cases hf : getState fromId s.accounts with
  | none =>
    simp only [commit, Transfer_eq, begin, hf]
    split_ifs <;> rfl
  | some fromA =>
    cases ht : getState toId s.accounts with
    | none =>
      simp only [commit, Transfer_eq, begin, hf, ht]
      split_ifs <;> rfl
    | some toA =>
      by_cases hok : transferOk amount fromA toA
      · simp only [commit, hok, if_true]
        rw [Transfer_ok ctx fromId toId amount travelRuleHash (begin s) fromA toA hf ht hok]
        rfl
      · obtain ⟨e, he⟩ :=
          Transfer_error ctx fromId toId amount travelRuleHash (begin s) fromA toA hf ht hok
        simp only [commit, hok, if_false]
        rw [he]

theorem commit_InitLedger (ctx : Ctx) (s : Ledger) :
    commit (InitLedger ctx) s =
      { accounts :=
          putState "chetan"
            { id := "chetan", ownerMSP := _getMSPId ctx, kycStatus := "VERIFIED",
              kycHash := none, frozen := false, sanctioned := false, balance := 0,
              meta := [("role", "RETAIL")] }
            (putState "treasury"
              { id := "treasury", ownerMSP := _getMSPId ctx, kycStatus := "VERIFIED",
                kycHash := none, frozen := false, sanctioned := false, balance := 0,
                meta := [("role", "ISSUER_TREASURY")] }
              s.accounts)
        supply := some { value := 0 }
        reserves := some { value := 0, «by» := _getMSPId ctx, ts := ctx.txTimestamp } } := by
  simp only [commit, InitLedger_eq, begin]

theorem commit_GetAccount (id : String) (s : Ledger) : commit (GetAccount id) s = s := by
  simp only [commit, GetAccount, _readAccount, _readJSON, stubGetState, bind, pure, begin]
  cases getState id s.accounts <;> simp [throwErr]

theorem commit_GetAllAccounts (s : Ledger) : commit GetAllAccounts s = s := by
  simp [commit, GetAllAccounts, begin]

theorem commit_GetSupply (s : Ledger) : commit GetSupply s = s := by
  simp [commit, GetSupply, _getSupply, bind, pure, begin]

theorem commit_GetReserves (s : Ledger) : commit GetReserves s = s := by
  simp [commit, GetReserves, _getReserves, bind, pure, begin]

theorem commit_GetStats (ctx : Ctx) (s : Ledger) : commit (GetStats ctx) s = s := by
  simp [commit, GetStats, _getSupply, _getReserves, bind, pure, begin]

/-! ## The reserve ceiling -/

@[simp] theorem supplyValue_withAccount (s : Ledger) (id : String) (a : Account) :
    supplyValue (withAccount s id a) = supplyValue s := rfl

@[simp] theorem reservesValue_withAccount (s : Ledger) (id : String) (a : Account) :
    reservesValue (withAccount s id a) = reservesValue s := rfl

theorem ceiling_step (s : Ledger) (ctx : Ctx) (c : Call)
    (hI : supplyValue s ≤ reservesValue s) (hal : reportCoversSupply s ctx c) :
    supplyValue (commit (invoke ctx c) s) ≤ reservesValue (commit (invoke ctx c) s) := by
  cases c with
  | RegisterAccount id =>
    simp only [invoke, commit_bind_pure, commit_RegisterAccount]
    cases getState id s.accounts <;> simpa using hI
  | SubmitKYC id kycHash =>
    simp only [invoke, commit_bind_pure, commit_SubmitKYC]
    cases getState id s.accounts <;> simpa using hI
  | VerifyKYC id =>
    simp only [invoke, commit_bind_pure, commit_VerifyKYC]
    cases getState id s.accounts <;> simpa using hI
  | FreezeAccount id =>
    simp only [invoke, commit_bind_pure, commit_FreezeAccount]
    cases getState id s.accounts with
    | none => simpa using hI
    | some a => dsimp only; split_ifs <;> simpa using hI
  | UnfreezeAccount id =>
    simp only [invoke, commit_bind_pure, commit_UnfreezeAccount]
    cases getState id s.accounts with
    | none => simpa using hI
    | some a => dsimp only; split_ifs <;> simpa using hI
  | SanctionAccount id =>
    simp only [invoke, commit_bind_pure, commit_SanctionAccount]
    cases getState id s.accounts <;> simpa using hI
  | UnsanctionAccount id =>
    simp only [invoke, commit_bind_pure, commit_UnsanctionAccount]
    cases getState id s.accounts <;> simpa using hI
  | SetReserveReport amount =>
    simp only [invoke, commit_bind_pure, commit_SetReserveReport]
    by_cases h : _getMSPId ctx = "Org1MSP"
    · simpa [h, supplyValue, reservesValue] using hal h
    · simpa [h] using hI
  | Mint toId amount =>
    simp only [invoke, commit_bind_pure, commit_Mint]
    cases getState toId s.accounts with
    | none => simpa using hI
    | some a =>
      dsimp only
      split_ifs with hok
      · simpa [supplyValue, reservesValue] using hok.2.2.1
      · exact hI
  | Transfer fromId toId amount travelRuleHash =>
    simp only [invoke, commit_bind_pure, commit_Transfer]
    split
    · split_ifs <;> simpa using hI
    · exact hI
  | InitLedger =>
    simp [invoke, commit_bind_pure, commit_InitLedger, supplyValue, reservesValue]
  | GetAccount id => simpa only [invoke, commit_bind_pure, commit_GetAccount] using hI
  | GetAllAccounts => simpa only [invoke, commit_bind_pure, commit_GetAllAccounts] using hI
  | GetSupply => simpa only [invoke, commit_bind_pure, commit_GetSupply] using hI
  | GetReserves => simpa only [invoke, commit_bind_pure, commit_GetReserves] using hI
  | GetStats => simpa only [invoke, commit_bind_pure, commit_GetStats] using hI

theorem reachableVia_run (allowed : Ledger → Ctx → Call → Prop) (cs : List (Ctx × Call)) :
    ∀ s : Ledger, ReachableVia allowed s → allowedAlong allowed cs s →
      ReachableVia allowed (run cs s) := by
  induction cs with
  | nil => intro s hs _; exact hs
  | cons c cs ih =>
    intro s hs hal
    exact ih _ (ReachableVia.step s c.1 c.2 hs hal.1) hal.2

theorem reachable_run (cs : List (Ctx × Call)) : Reachable (run cs emptyLedger) := by
  apply reachableVia_run _ cs emptyLedger ReachableVia.init
  generalize emptyLedger = s
  induction cs generalizing s with
  | nil => trivial
  | cons c cs ih => exact ⟨trivial, ih _⟩

theorem result_GetSupply (s : Ledger) : result GetSupply s = Except.ok (supplyValue s) := rfl

theorem result_GetReserves (s : Ledger) : result GetReserves s = Except.ok (reservesValue s) :=
  rfl

/-- C1 (as amended): in every state reached from the empty ledger by invocations in which
each `SetReserveReport` of the issuer reports at least the supply of that moment, the value
read by `GetSupply` is at most the value read by `GetReserves`. -/
theorem reserve_ceiling_invariant (s : Ledger) (h : ReachableVia reportCoversSupply s) :
    ∃ x y : Int, result GetSupply s = Except.ok x ∧ result GetReserves s = Except.ok y ∧
      x ≤ y := by
  refine ⟨supplyValue s, reservesValue s, rfl, rfl, ?_⟩
  induction h with
  | init => simp [emptyLedger, supplyValue, reservesValue]
  | step s ctx c _ hal ih => exact ceiling_step s ctx c ih hal

/-- Witness of C1: the state after `fullyBackedTrace` is reached under the guard, and there
`GetSupply` reads 100 and `GetReserves` reads 100. -/
theorem reserve_ceiling_invariant_witness :
    ReachableVia reportCoversSupply (run fullyBackedTrace emptyLedger) ∧
      ∃ x y : Int, result GetSupply (run fullyBackedTrace emptyLedger) = Except.ok x ∧
        result GetReserves (run fullyBackedTrace emptyLedger) = Except.ok y ∧ x ≤ y :=
  have hal : allowedAlong reportCoversSupply fullyBackedTrace emptyLedger := by decide
  have hr := reachableVia_run reportCoversSupply fullyBackedTrace emptyLedger
    ReachableVia.init hal
  ⟨hr, reserve_ceiling_invariant (run fullyBackedTrace emptyLedger) hr⟩

/-- C1 (counterexample): the state after `loweredReportTrace` is reachable from the empty
ledger, `GetSupply` reads 100 there and `GetReserves` reads 0, so the supply is not bounded
by the reserves in every reachable state. -/
theorem reserve_ceiling_broken_by_lower_report :
    (Reachable (run loweredReportTrace emptyLedger) ∧
      result GetSupply (run loweredReportTrace emptyLedger) = Except.ok 100 ∧
      result GetReserves (run loweredReportTrace emptyLedger) = Except.ok 0) ∧
    ¬ (∀ s : Ledger, Reachable s → ∀ x y : Int, result GetSupply s = Except.ok x →
        result GetReserves s = Except.ok y → x ≤ y) := by
  have h : Reachable (run loweredReportTrace emptyLedger) ∧
      result GetSupply (run loweredReportTrace emptyLedger) = Except.ok 100 ∧
      result GetReserves (run loweredReportTrace emptyLedger) = Except.ok 0 :=
    ⟨reachable_run loweredReportTrace, rfl, rfl⟩
  refine ⟨h, fun hall => ?_⟩
  have := hall _ h.1 100 0 h.2.1 h.2.2
  omega

/-! ## Conservation of the supply -/

theorem mem_keys_putState (id : String) (a : Account) (l : List (String × Account))
    (x : String) :
    x ∈ (putState id a l).map Prod.fst ↔ x = id ∨ x ∈ l.map Prod.fst := by
  induction l with
  | nil => simp [putState]
  | cons e rest ih =>
    obtain ⟨k, v⟩ := e
    by_cases h : k = id
    · subst h
      simp [putState]
    · simp only [putState, h, if_false, List.map_cons, List.mem_cons, ih]
      tauto

theorem keysNodup_putState (id : String) (a : Account) (l : List (String × Account))
    (h : KeysNodup l) : KeysNodup (putState id a l) := by
  induction l with
  | nil => simp [putState, KeysNodup]
  | cons e rest ih =>
    obtain ⟨k, v⟩ := e
    unfold KeysNodup at h ih ⊢
    simp only [List.map_cons, List.nodup_cons] at h
    by_cases hk : k = id
    · subst hk
      simpa [putState] using h
    · simp only [putState, hk, if_false, List.map_cons, List.nodup_cons]
      refine ⟨fun hx => ?_, ih h.2⟩
      rw [mem_keys_putState] at hx
      exact hx.elim hk h.1

theorem getState_eq_none_of_not_mem (id : String) (l : List (String × Account))
    (h : id ∉ l.map Prod.fst) : getState id l = none := by
  induction l with
  | nil => rfl
  | cons e rest ih =>
    obtain ⟨k, v⟩ := e
    simp only [List.map_cons, List.mem_cons, not_or] at h
    simp [getState, Ne.symm h.1, ih h.2]

theorem totalBalance_withAccount (s : Ledger) (id : String) (a : Account) :
    totalBalance (withAccount s id a) = totalBalance s - balanceOf s id + a.balance := by
  simp only [totalBalance, withAccount, balanceOf]
  exact sum_putState id a s.accounts

theorem balanceOf_withAccount_ne (s : Ledger) (id id' : String) (a : Account)
    (hne : id' ≠ id) : balanceOf (withAccount s id a) id' = balanceOf s id' := by
  simp only [balanceOf, withAccount, getState_putState_ne id id' a s.accounts hne]

theorem balanceOf_of_getState (s : Ledger) (id : String) (a : Account)
    (h : getState id s.accounts = some a) : balanceOf s id = a.balance := by
  simp [balanceOf, h]

theorem balanceOf_of_getState_none (s : Ledger) (id : String)
    (h : getState id s.accounts = none) : balanceOf s id = 0 := by
  simp [balanceOf, h]

/-- With distinct keys, when only the records under `t` and `c` hold a balance, the total
is the sum of those two balances. -/
theorem sum_eq_two_of_others_zero (t c : String) (htc : t ≠ c) (l : List (String × Account))
    (hnd : KeysNodup l)
    (hz : ∀ e ∈ l, e.1 ≠ t → e.1 ≠ c → e.2.balance = 0) :
    (l.map (fun e => e.2.balance)).sum
      = (match getState t l with
         | some b => b.balance
         | none => 0)
        + (match getState c l with
           | some b => b.balance
           | none => 0) := by
  induction l with
  | nil => simp [getState]
  | cons e rest ih =>
    obtain ⟨k, v⟩ := e
    unfold KeysNodup at hnd ih
    simp only [List.map_cons, List.nodup_cons] at hnd
    have ih' := ih hnd.2 (fun e he => hz e (List.mem_cons_of_mem _ he))
    by_cases hkt : k = t
    · subst hkt
      have hn := getState_eq_none_of_not_mem k rest hnd.1
      simp only [List.map_cons, List.sum_cons, ih', getState, if_true, htc, if_false, hn]
      ring
    · by_cases hkc : k = c
      · subst hkc
        have hn := getState_eq_none_of_not_mem k rest hnd.1
        simp only [List.map_cons, List.sum_cons, ih', getState, if_true, hkt, if_false, hn]
        ring
      · have h0 : v.balance = 0 := hz (k, v) (List.mem_cons_self _ _) hkt hkc
        simp only [List.map_cons, List.sum_cons, ih', getState, hkt, hkc, if_false, h0]
        ring

theorem conserved_withAccount_same (s : Ledger) (id : String) (a a' : Account)
    (h : getState id s.accounts = some a) (hb : a'.balance = a.balance) (hc : Conserved s) :
    Conserved (withAccount s id a') := by
  refine ⟨keysNodup_putState id a' s.accounts hc.1, ?_⟩
  rw [totalBalance_withAccount, balanceOf_of_getState s id a h, hb, supplyValue_withAccount,
    hc.2]
  ring

theorem conserved_withAccount_new (s : Ledger) (id : String) (a' : Account)
    (h : getState id s.accounts = none) (hb : a'.balance = 0) (hc : Conserved s) :
    Conserved (withAccount s id a') := by
  refine ⟨keysNodup_putState id a' s.accounts hc.1, ?_⟩
  rw [totalBalance_withAccount, balanceOf_of_getState_none s id h, hb, supplyValue_withAccount,
    hc.2]
  ring

theorem conserved_step (s : Ledger) (ctx : Ctx) (c : Call)
    (hc : Conserved s) (hal : conservingCall s ctx c) :
    Conserved (commit (invoke ctx c) s) := by
  cases c with
  | RegisterAccount id =>
    simp only [invoke, commit_bind_pure, commit_RegisterAccount]
    cases h : getState id s.accounts with
    | none => exact conserved_withAccount_new s id _ h rfl hc
    | some a => exact hc
  | SubmitKYC id kycHash =>
    simp only [invoke, commit_bind_pure, commit_SubmitKYC]
    cases h : getState id s.accounts with
    | none => exact hc
    | some a => exact conserved_withAccount_same s id a _ h rfl hc
  | VerifyKYC id =>
    simp only [invoke, commit_bind_pure, commit_VerifyKYC]
    cases h : getState id s.accounts with
    | none => exact hc
    | some a => exact conserved_withAccount_same s id a _ h rfl hc
  | FreezeAccount id =>
    simp only [invoke, commit_bind_pure, commit_FreezeAccount]
    cases h : getState id s.accounts with
    | none => exact hc
    | some a =>
      dsimp only
      split_ifs
      · exact hc
      · exact conserved_withAccount_same s id a _ h rfl hc
  | UnfreezeAccount id =>
    simp only [invoke, commit_bind_pure, commit_UnfreezeAccount]
    cases h : getState id s.accounts with
    | none => exact hc
    | some a =>
      dsimp only
      split_ifs
      · exact hc
      · exact conserved_withAccount_same s id a _ h rfl hc
  | SanctionAccount id =>
    simp only [invoke, commit_bind_pure, commit_SanctionAccount]
    cases h : getState id s.accounts with
    | none => exact hc
    | some a => exact conserved_withAccount_same s id a _ h rfl hc
  | UnsanctionAccount id =>
    simp only [invoke, commit_bind_pure, commit_UnsanctionAccount]
    cases h : getState id s.accounts with
    | none => exact hc
    | some a => exact conserved_withAccount_same s id a _ h rfl hc
  | SetReserveReport amount =>
    simp only [invoke, commit_bind_pure, commit_SetReserveReport]
    split_ifs
    · exact hc
    · exact hc
  | Mint toId amount =>
    simp only [invoke, commit_bind_pure, commit_Mint]
    cases h : getState toId s.accounts with
    | none => exact hc
    | some a =>
      dsimp only
      split_ifs with hok
      · refine ⟨keysNodup_putState toId _ s.accounts hc.1, ?_⟩
        have hsum := sum_putState toId { a with balance := a.balance + amount } s.accounts
        rw [h] at hsum
        have h2 := hc.2
        simp only [totalBalance] at h2
        show supplyValue s + amount = _
        simp only [totalBalance, hsum, h2]
        ring
      · exact hc
  | Transfer fromId toId amount travelRuleHash =>
    have hne : fromId ≠ toId := hal
    simp only [invoke, commit_bind_pure, commit_Transfer]
    cases hf : getState fromId s.accounts with
    | none => exact hc
    | some fromA =>
      cases ht : getState toId s.accounts with
      | none => exact hc
      | some toA =>
        dsimp only
        split_ifs with hok
        · refine ⟨keysNodup_putState toId _ _ (keysNodup_putState fromId _ _ hc.1), ?_⟩
          rw [totalBalance_withAccount, totalBalance_withAccount,
            balanceOf_withAccount_ne s fromId toId _ (Ne.symm hne),
            balanceOf_of_getState s fromId fromA hf, balanceOf_of_getState s toId toA ht,
            supplyValue_withAccount, supplyValue_withAccount, hc.2]
          ring
        · exact hc
  | InitLedger =>
    simp only [invoke, commit_bind_pure, commit_InitLedger]
    refine ⟨keysNodup_putState _ _ _ (keysNodup_putState _ _ _ hc.1), ?_⟩
    have h2 := sum_eq_two_of_others_zero "treasury" "chetan" (by decide) s.accounts hc.1
      hal
    have hne : getState "chetan" (putState "treasury"
        { id := "treasury", ownerMSP := _getMSPId ctx, kycStatus := "VERIFIED",
          kycHash := none, frozen := false, sanctioned := false, balance := 0,
          meta := [("role", "ISSUER_TREASURY")] } s.accounts) = getState "chetan" s.accounts :=
      getState_putState_ne _ _ _ _ (by decide)
    simp only [totalBalance, supplyValue, sum_putState, hne, h2]
    ring
  | GetAccount id => simpa only [invoke, commit_bind_pure, commit_GetAccount] using hc
  | GetAllAccounts => simpa only [invoke, commit_bind_pure, commit_GetAllAccounts] using hc
  | GetSupply => simpa only [invoke, commit_bind_pure, commit_GetSupply] using hc
  | GetReserves => simpa only [invoke, commit_bind_pure, commit_GetReserves] using hc
  | GetStats => simpa only [invoke, commit_bind_pure, commit_GetStats] using hc

/-- C2 (as amended): in every state reached from the empty ledger by invocations in which
`InitLedger` is made only while no account other than `treasury` and `chetan` holds a
balance, and every `Transfer` names two distinct accounts, the value read by `GetSupply` is
the sum of the balances of all account records. -/
theorem supply_conservation_invariant (s : Ledger) (h : ReachableVia conservingCall s) :
    result GetSupply s = Except.ok (totalBalance s) := by
  have hc : Conserved s := by
    induction h with
    | init => exact ⟨List.nodup_nil, rfl⟩
    | step s ctx c _ hal ih => exact conserved_step s ctx c ih hal
  rw [result_GetSupply, hc.2]

/-- Witness of C2: the state after `provisionedTrace` is reached under the guard; the supply
read there is the total of the balances, 500. -/
theorem supply_conservation_invariant_witness :
    ReachableVia conservingCall (run provisionedTrace emptyLedger) ∧
      result GetSupply (run provisionedTrace emptyLedger)
        = Except.ok (totalBalance (run provisionedTrace emptyLedger)) ∧
      totalBalance (run provisionedTrace emptyLedger) = 500 :=
  have hal : allowedAlong conservingCall provisionedTrace emptyLedger := by decide
  have hr := reachableVia_run conservingCall provisionedTrace emptyLedger
    ReachableVia.init hal
  ⟨hr, supply_conservation_invariant (run provisionedTrace emptyLedger) hr, rfl⟩

/-- C2 (counterexample): the state after `reprovisionedTrace` is reachable from the empty
ledger; `GetSupply` reads 0 there while the balances of the account records sum to 500. -/
theorem supply_conservation_broken_by_InitLedger :
    (Reachable (run reprovisionedTrace emptyLedger) ∧
      result GetSupply (run reprovisionedTrace emptyLedger) = Except.ok 0 ∧
      totalBalance (run reprovisionedTrace emptyLedger) = 500) ∧
    ¬ (∀ s : Ledger, Reachable s → result GetSupply s = Except.ok (totalBalance s)) := by
  have h : Reachable (run reprovisionedTrace emptyLedger) ∧
      result GetSupply (run reprovisionedTrace emptyLedger) = Except.ok 0 ∧
      totalBalance (run reprovisionedTrace emptyLedger) = 500 :=
    ⟨reachable_run reprovisionedTrace, rfl, rfl⟩
  refine ⟨h, fun hall => ?_⟩
  have h1 := hall _ h.1
  rw [h.2.1, h.2.2] at h1
  injection h1 with h2
  exact absurd h2 (by decide)

/-! ## Transfer to oneself -/

/-- C3 (the code at the failing input): in `aliceHolds100`, `Transfer(alice, alice, 40)`
returns, and the balance of the sender plus the balance of the recipient is 200 before the
call and 280 after it. -/
theorem Transfer_self_breaks_pair_conservation :
    result (Transfer org2 "alice" "alice" 40 "") aliceHolds100
        = Except.ok "Transferred 40 from alice to alice" ∧
      balanceOf aliceHolds100 "alice" + balanceOf aliceHolds100 "alice" = 200 ∧
      balanceOf (commit (Transfer org2 "alice" "alice" 40 "") aliceHolds100) "alice"
        + balanceOf (commit (Transfer org2 "alice" "alice" 40 "") aliceHolds100) "alice"
        = 280 :=
  ⟨rfl, rfl, rfl⟩

/-- C4 (the code at the failing input): in `chetanHolds500` the account `chetan` is
VERIFIED, not frozen, not sanctioned and holds 500; `Transfer(chetan, chetan, 200)` returns
and leaves the stored balance at 700, while `GetSupply` still reads 500. -/
theorem Transfer_self_credits_amount :
    getState "chetan" chetanHolds500.accounts
        = some { id := "chetan", ownerMSP := "Org1MSP", kycStatus := "VERIFIED",
                 kycHash := none, frozen := false, sanctioned := false, balance := 500,
                 meta := [("role", "RETAIL")] } ∧
      result (Transfer org2 "chetan" "chetan" 200 "") chetanHolds500
        = Except.ok "Transferred 200 from chetan to chetan" ∧
      getState "chetan" (commit (Transfer org2 "chetan" "chetan" 200 "") chetanHolds500).accounts
        = some { id := "chetan", ownerMSP := "Org1MSP", kycStatus := "VERIFIED",
                 kycHash := none, frozen := false, sanctioned := false, balance := 700,
                 meta := [("role", "RETAIL")] } ∧
      result GetSupply (commit (Transfer org2 "chetan" "chetan" 200 "") chetanHolds500)
        = Except.ok 500 :=
  ⟨rfl, rfl, rfl, rfl⟩

/-! ## Mint -/

theorem Mint_ok (ctx : Ctx) (toId : String) (amount : Int) (w : TxState) (a : Account)
    (ha : getState toId w.ledger.accounts = some a) (hok : mintOk ctx amount w.ledger a) :
    Mint ctx toId amount w =
      (Except.ok ("Minted " ++ toString amount ++ " to " ++ toId), afterMint toId amount a w) := by
  obtain ⟨h1, h2, h3, h4, h5, h6⟩ := hok
  rw [Mint_eq]
  simp [ha, h1, h2, h3, h4, h5, h6, not_le.mpr h2]

theorem Mint_ok_inv (ctx : Ctx) (toId : String) (amount : Int) (w w' : TxState) (r : String)
    (h : Mint ctx toId amount w = (Except.ok r, w')) :
    ∃ a, getState toId w.ledger.accounts = some a ∧ mintOk ctx amount w.ledger a ∧
      w' = afterMint toId amount a w := by
  rw [Mint_eq] at h
  split_ifs at h with h1 h2 h3
  · exact absurd (congrArg Prod.fst h) (by simp)
  · exact absurd (congrArg Prod.fst h) (by simp)
  · exact absurd (congrArg Prod.fst h) (by simp)
  · cases ha : getState toId w.ledger.accounts with
    | none =>
      rw [ha] at h
      exact absurd (congrArg Prod.fst h) (by simp)
    | some a =>
      rw [ha] at h
      dsimp only at h
      split_ifs at h with h5 h6
      · exact absurd (congrArg Prod.fst h) (by simp)
      · exact absurd (congrArg Prod.fst h) (by simp)
      · simp only [not_or, not_not, Bool.not_eq_true] at h1 h5 h6
        exact ⟨a, rfl, ⟨h1, not_le.mp h2, not_lt.mp h3, h5, h6.1, h6.2⟩,
          (congrArg Prod.snd h).symm⟩

/-- C5: when the issuer calls `Mint(to, amount)` with `amount > 0`: if
`Supply + amount > Reserves` the call throws the reserve-ceiling error with nothing written
and no event set; if the call returns, the resulting Supply is at most Reserves; and when
`Supply + amount = Reserves` and the recipient is VERIFIED, not frozen and not sanctioned,
the call returns and the resulting Supply equals Reserves. -/
theorem Mint_enforces_ceiling (ctx : Ctx) (toId : String) (amount : Int) (w : TxState)
    (hiss : _getMSPId ctx = "Org1MSP") (hpos : 0 < amount) :
    (supplyValue w.ledger + amount > reservesValue w.ledger →
      Mint ctx toId amount w =
        (Except.error "Mint blocked: reserves would be below total supply", w)) ∧
    (∀ (r : String) (w' : TxState), Mint ctx toId amount w = (Except.ok r, w') →
      supplyValue w'.ledger ≤ reservesValue w'.ledger) ∧
    (supplyValue w.ledger + amount = reservesValue w.ledger →
      ∀ a : Account, getState toId w.ledger.accounts = some a →
        a.kycStatus = "VERIFIED" → a.frozen = false → a.sanctioned = false →
        ∃ (r : String) (w' : TxState), Mint ctx toId amount w = (Except.ok r, w') ∧
          supplyValue w'.ledger = reservesValue w.ledger ∧
          reservesValue w'.ledger = reservesValue w.ledger) := by
  refine ⟨fun hgt => ?_, fun r w' h => ?_, fun heq a ha hk hf hs => ?_⟩
  · rw [Mint_eq]
    simp [hiss, not_le.mpr hpos, hgt]
  · obtain ⟨a, _, hok, hw⟩ := Mint_ok_inv ctx toId amount w w' r h
    subst hw
    exact hok.2.2.1
  · refine ⟨_, _, Mint_ok ctx toId amount w a ha ⟨hiss, hpos, le_of_eq heq, hk, hf, hs⟩, ?_, rfl⟩
    exact heq

/-- Witness of C5: with Reserves 100 and Supply 90, `Mint(chetan, 20)` by the issuer throws
the reserve-ceiling error and stages nothing, and `Mint(chetan, 10)` returns with Supply
100. -/
theorem Mint_enforces_ceiling_witness :
    (result GetSupply supply90of100 = Except.ok 90 ∧
      result GetReserves supply90of100 = Except.ok 100) ∧
    Mint issuer "chetan" 20 (begin supply90of100) =
      (Except.error "Mint blocked: reserves would be below total supply",
        begin supply90of100) ∧
    ∃ (r : String) (w' : TxState),
      Mint issuer "chetan" 10 (begin supply90of100) = (Except.ok r, w') ∧
        supplyValue w'.ledger = reservesValue (begin supply90of100).ledger ∧
        reservesValue w'.ledger = reservesValue (begin supply90of100).ledger :=
  ⟨⟨rfl, rfl⟩,
    (Mint_enforces_ceiling issuer "chetan" 20 (begin supply90of100) rfl (by decide)).1
      (by decide),
    (Mint_enforces_ceiling issuer "chetan" 10 (begin supply90of100) rfl (by decide)).2.2
      (by decide) _ rfl rfl rfl rfl⟩

theorem Mint_error_of_ineligible (ctx : Ctx) (toId : String) (amount : Int) (w : TxState)
    (a : Account) (ha : getState toId w.ledger.accounts = some a)
    (hbad : a.kycStatus ≠ "VERIFIED" ∨ a.frozen = true ∨ a.sanctioned = true) :
    ∃ e, Mint ctx toId amount w = (Except.error e, w) := by
  rw [Mint_eq]
  simp only [ha]
  split_ifs with h1 h2 h3 h5 h6
  · exact ⟨_, rfl⟩
  · exact ⟨_, rfl⟩
  · exact ⟨_, rfl⟩
  · exact ⟨_, rfl⟩
  · exact ⟨_, rfl⟩
  · exfalso
    rcases hbad with hb | hb | hb
    · exact h5 hb
    · exact h6 (Or.inl hb)
    · exact h6 (Or.inr hb)

/-- C6: for a registered recipient, if its kycStatus is not VERIFIED, or it is frozen, or it
is sanctioned, `Mint` throws with nothing written and no event set, whoever calls and
whatever the amount; and when the caller is the issuer, the amount is positive and within
the ceiling, that error is one of the two compliance errors, and `Mint` returns exactly
when the recipient is VERIFIED, not frozen and not sanctioned. -/
theorem Mint_compliance_gating (ctx : Ctx) (toId : String) (amount : Int) (w : TxState)
    (a : Account) (ha : getState toId w.ledger.accounts = some a) :
    ((a.kycStatus ≠ "VERIFIED" ∨ a.frozen = true ∨ a.sanctioned = true) →
      ∃ e, Mint ctx toId amount w = (Except.error e, w)) ∧
    (_getMSPId ctx = "Org1MSP" → 0 < amount →
      supplyValue w.ledger + amount ≤ reservesValue w.ledger →
      ((a.kycStatus ≠ "VERIFIED" →
          Mint ctx toId amount w = (Except.error "Recipient must be KYC-VERIFIED", w)) ∧
        (a.kycStatus = "VERIFIED" → (a.frozen = true ∨ a.sanctioned = true) →
          Mint ctx toId amount w = (Except.error "Recipient is frozen or sanctioned", w)) ∧
        ((∃ (r : String) (w' : TxState), Mint ctx toId amount w = (Except.ok r, w')) ↔
          (a.kycStatus = "VERIFIED" ∧ a.frozen = false ∧ a.sanctioned = false)))) := by
  refine ⟨Mint_error_of_ineligible ctx toId amount w a ha, fun hiss hpos hceil => ⟨?_, ?_, ?_⟩⟩
  · intro hk
    rw [Mint_eq]
    simp [ha, hiss, not_le.mpr hpos, not_lt.mpr hceil, hk]
  · intro hk hfs
    rw [Mint_eq]
    simp [ha, hiss, not_le.mpr hpos, not_lt.mpr hceil, hk, hfs]
  · constructor
    · rintro ⟨r, w', h⟩
      obtain ⟨a', ha', hok, _⟩ := Mint_ok_inv ctx toId amount w w' r h
      rw [ha] at ha'
      injection ha' with ha'
      subst ha'
      exact hok.2.2.2
    · rintro ⟨hk, hf, hs⟩
      exact ⟨_, _, Mint_ok ctx toId amount w a ha ⟨hiss, hpos, hceil, hk, hf, hs⟩⟩

/-- Witness of C6: in `gatedLedger` the issuer cannot mint 10 to the PENDING `alice`, to the
frozen `treasury` nor to the sanctioned `chetan`; each call throws its compliance error and
stages nothing. -/
theorem Mint_compliance_gating_witness :
    Mint issuer "alice" 10 (begin gatedLedger)
        = (Except.error "Recipient must be KYC-VERIFIED", begin gatedLedger) ∧
      Mint issuer "treasury" 10 (begin gatedLedger)
        = (Except.error "Recipient is frozen or sanctioned", begin gatedLedger) ∧
      Mint issuer "chetan" 10 (begin gatedLedger)
        = (Except.error "Recipient is frozen or sanctioned", begin gatedLedger) :=
  ⟨((Mint_compliance_gating issuer "alice" 10 (begin gatedLedger) _ rfl).2 rfl (by decide)
      (by decide)).1 (by decide),
    ((Mint_compliance_gating issuer "treasury" 10 (begin gatedLedger) _ rfl).2 rfl (by decide)
      (by decide)).2.1 rfl (Or.inl rfl),
    ((Mint_compliance_gating issuer "chetan" 10 (begin gatedLedger) _ rfl).2 rfl (by decide)
      (by decide)).2.1 rfl (Or.inr rfl)⟩

/-! ## Transfer -/

theorem Transfer_ok_inv (ctx : Ctx) (fromId toId : String) (amount : Int)
    (travelRuleHash : String) (w w' : TxState) (r : String)
    (h : Transfer ctx fromId toId amount travelRuleHash w = (Except.ok r, w')) :
    ∃ fromA toA, getState fromId w.ledger.accounts = some fromA ∧
      getState toId w.ledger.accounts = some toA ∧ transferOk amount fromA toA ∧
      w' = afterTransfer ctx fromId toId amount travelRuleHash fromA toA w := by
  cases hf : getState fromId w.ledger.accounts with
  | none =>
    rw [Transfer_eq, hf] at h
    split_ifs at h <;> exact absurd (congrArg Prod.fst h) (by simp)
  | some fromA =>
    cases ht : getState toId w.ledger.accounts with
    | none =>
      rw [Transfer_eq, hf, ht] at h
      split_ifs at h <;> exact absurd (congrArg Prod.fst h) (by simp)
    | some toA =>
      by_cases hok : transferOk amount fromA toA
      · rw [Transfer_ok ctx fromId toId amount travelRuleHash w fromA toA hf ht hok] at h
        exact ⟨fromA, toA, rfl, rfl, hok, (congrArg Prod.snd h).symm⟩
      · obtain ⟨e, he⟩ :=
          Transfer_error ctx fromId toId amount travelRuleHash w fromA toA hf ht hok
        rw [he] at h
        exact absurd (congrArg Prod.fst h) (by simp)

theorem Transfer_total (ctx : Ctx) (fromId toId : String) (amount : Int)
    (travelRuleHash : String) (w : TxState) :
    (∃ (r : String) (w' : TxState),
        Transfer ctx fromId toId amount travelRuleHash w = (Except.ok r, w')) ∨
      ∃ e, Transfer ctx fromId toId amount travelRuleHash w = (Except.error e, w) := by
  cases hf : getState fromId w.ledger.accounts with
  | none =>
    right
    rw [Transfer_eq, hf]
    split_ifs <;> exact ⟨_, rfl⟩
  | some fromA =>
    cases ht : getState toId w.ledger.accounts with
    | none =>
      right
      rw [Transfer_eq, hf, ht]
      split_ifs <;> exact ⟨_, rfl⟩
    | some toA =>
      by_cases hok : transferOk amount fromA toA
      · exact Or.inl ⟨_, _, Transfer_ok ctx fromId toId amount travelRuleHash w fromA toA hf ht hok⟩
      · exact Or.inr (Transfer_error ctx fromId toId amount travelRuleHash w fromA toA hf ht hok)

/-- C7: `Transfer` returns if and only if the amount is positive, both accounts are
registered, both are VERIFIED, neither is frozen, neither is sanctioned and the balance of
the sender is at least the amount (`transferOk`); in every other case it throws with nothing
written and no event set: the invalid-amount error for an amount of 0 or less, a not-found
error for an unregistered account, one of the three compliance errors for a party that is
not VERIFIED, frozen or sanctioned, and the insufficient-balance error otherwise. -/
theorem Transfer_succeeds_iff (ctx : Ctx) (fromId toId : String) (amount : Int)
    (travelRuleHash : String) (w : TxState) :
    ((∃ (r : String) (w' : TxState),
        Transfer ctx fromId toId amount travelRuleHash w = (Except.ok r, w')) ↔
      ∃ fromA toA, getState fromId w.ledger.accounts = some fromA ∧
        getState toId w.ledger.accounts = some toA ∧ transferOk amount fromA toA) ∧
    ((¬ ∃ (r : String) (w' : TxState),
        Transfer ctx fromId toId amount travelRuleHash w = (Except.ok r, w')) →
      ∃ e, Transfer ctx fromId toId amount travelRuleHash w = (Except.error e, w)) ∧
    (amount ≤ 0 →
      Transfer ctx fromId toId amount travelRuleHash w
        = (Except.error "Amount must be positive", w)) ∧
    (0 < amount → getState fromId w.ledger.accounts = none →
      Transfer ctx fromId toId amount travelRuleHash w
        = (Except.error ("Account " ++ fromId ++ " not found"), w)) ∧
    (0 < amount → getState fromId w.ledger.accounts ≠ none →
      getState toId w.ledger.accounts = none →
      Transfer ctx fromId toId amount travelRuleHash w
        = (Except.error ("Account " ++ toId ++ " not found"), w)) ∧
    (∀ fromA toA, 0 < amount → getState fromId w.ledger.accounts = some fromA →
      getState toId w.ledger.accounts = some toA →
      ¬ (fromA.kycStatus = "VERIFIED" ∧ toA.kycStatus = "VERIFIED" ∧ fromA.frozen = false ∧
          toA.frozen = false ∧ fromA.sanctioned = false ∧ toA.sanctioned = false) →
      Transfer ctx fromId toId amount travelRuleHash w
          = (Except.error "KYC not verified for sender or recipient", w) ∨
        Transfer ctx fromId toId amount travelRuleHash w
          = (Except.error "One of the accounts is frozen", w) ∨
        Transfer ctx fromId toId amount travelRuleHash w
          = (Except.error "Transfer blocked: sanctioned party", w)) ∧
    (∀ fromA toA, 0 < amount → getState fromId w.ledger.accounts = some fromA →
      getState toId w.ledger.accounts = some toA →
      (fromA.kycStatus = "VERIFIED" ∧ toA.kycStatus = "VERIFIED" ∧ fromA.frozen = false ∧
          toA.frozen = false ∧ fromA.sanctioned = false ∧ toA.sanctioned = false) →
      fromA.balance < amount →
      Transfer ctx fromId toId amount travelRuleHash w
        = (Except.error "Insufficient balance", w)) := by
  refine ⟨⟨?_, ?_⟩, ?_, ?_, ?_, ?_, ?_, ?_⟩
  · rintro ⟨r, w', h⟩
    obtain ⟨fromA, toA, hf, ht, hok, _⟩ :=
      Transfer_ok_inv ctx fromId toId amount travelRuleHash w w' r h
    exact ⟨fromA, toA, hf, ht, hok⟩
  · rintro ⟨fromA, toA, hf, ht, hok⟩
    exact ⟨_, _, Transfer_ok ctx fromId toId amount travelRuleHash w fromA toA hf ht hok⟩
  · intro hno
    rcases Transfer_total ctx fromId toId amount travelRuleHash w with h | h
    · exact absurd h hno
    · exact h
  · intro h
    rw [Transfer_eq]
    simp [h]
  · intro hpos hf
    rw [Transfer_eq]
    simp [not_le.mpr hpos, hf]
  · intro hpos hf ht
    rw [Transfer_eq]
    cases hf' : getState fromId w.ledger.accounts with
    | none => exact absurd hf' hf
    | some fromA => simp [not_le.mpr hpos, ht]
  · intro fromA toA hpos hf ht hbad
    rw [Transfer_eq]
    simp only [hf, ht, not_le.mpr hpos, if_false]
    split_ifs with h2 h3 h4 h5
    · exact Or.inl rfl
    · exact Or.inr (Or.inl rfl)
    · exact Or.inr (Or.inr rfl)
    · exfalso
      simp only [not_or, not_not, Bool.not_eq_true] at h2 h3 h4
      exact hbad ⟨h2.1, h2.2, h3.1, h3.2, h4.1, h4.2⟩
    · exfalso
      simp only [not_or, not_not, Bool.not_eq_true] at h2 h3 h4
      exact hbad ⟨h2.1, h2.2, h3.1, h3.2, h4.1, h4.2⟩
  · intro fromA toA hpos hf ht hgood hlt
    obtain ⟨h1, h2, h3, h4, h5, h6⟩ := hgood
    rw [Transfer_eq]
    simp [hf, ht, not_le.mpr hpos, h1, h2, h3, h4, h5, h6, hlt]

/-- Witness of C7: in the scenario `Transfer(alice, bob, 200)` returns, `Transfer` with amount
0 throws the invalid-amount error, and after `SanctionAccount(alice)` the call
`Transfer(alice, bob, 1)` throws a compliance error; the failing calls stage nothing. -/
theorem Transfer_succeeds_iff_witness :
    (∃ (r : String) (w' : TxState),
      Transfer org2 "alice" "bob" 200 "" (begin aliceAndBob) = (Except.ok r, w')) ∧
    Transfer org2 "alice" "bob" 0 "" (begin aliceAndBob)
      = (Except.error "Amount must be positive", begin aliceAndBob) ∧
    (Transfer org2 "alice" "bob" 1 "" (begin aliceSanctioned)
        = (Except.error "KYC not verified for sender or recipient", begin aliceSanctioned) ∨
      Transfer org2 "alice" "bob" 1 "" (begin aliceSanctioned)
        = (Except.error "One of the accounts is frozen", begin aliceSanctioned) ∨
      Transfer org2 "alice" "bob" 1 "" (begin aliceSanctioned)
        = (Except.error "Transfer blocked: sanctioned party", begin aliceSanctioned)) :=
  ⟨(Transfer_succeeds_iff org2 "alice" "bob" 200 "" (begin aliceAndBob)).1.mpr
      ⟨_, _, rfl, rfl, by decide⟩,
    (Transfer_succeeds_iff org2 "alice" "bob" 0 "" (begin aliceAndBob)).2.2.1 (by decide),
    (Transfer_succeeds_iff org2 "alice" "bob" 1 "" (begin aliceSanctioned)).2.2.2.2.2.1
      _ _ (by decide) rfl rfl (by decide)⟩

/-- C8: if `Transfer(a, b, amt)` returns for distinct ids `a` and `b`, then the record of
`a` after the call is its record before with the balance lowered by `amt`, the record of `b`
is its record before with the balance raised by `amt`, every other account record is as it
was, and so are the records under `SUPPLY` and `RESERVES`. -/
theorem Transfer_postcondition (ctx : Ctx) (a b : String) (amt : Int)
    (travelRuleHash : String) (w w' : TxState) (r : String) (hne : a ≠ b)
    (h : Transfer ctx a b amt travelRuleHash w = (Except.ok r, w')) :
    ∃ fromA toA, getState a w.ledger.accounts = some fromA ∧
      getState b w.ledger.accounts = some toA ∧
      getState a w'.ledger.accounts = some { fromA with balance := fromA.balance - amt } ∧
      getState b w'.ledger.accounts = some { toA with balance := toA.balance + amt } ∧
      (∀ c, c ≠ a → c ≠ b → getState c w'.ledger.accounts = getState c w.ledger.accounts) ∧
      w'.ledger.supply = w.ledger.supply ∧ w'.ledger.reserves = w.ledger.reserves := by
  obtain ⟨fromA, toA, hf, ht, _, hw⟩ := Transfer_ok_inv ctx a b amt travelRuleHash w w' r h
  subst hw
  refine ⟨fromA, toA, hf, ht, ?_, ?_, ?_, rfl, rfl⟩
  · simp only [afterTransfer, withAccount]
    rw [getState_putState_ne b a _ _ hne, getState_putState_same]
  · simp only [afterTransfer, withAccount]
    rw [getState_putState_same]
  · intro c hca hcb
    simp only [afterTransfer, withAccount]
    rw [getState_putState_ne b c _ _ hcb, getState_putState_ne a c _ _ hca]

/-- Witness of C8: in the scenario, `Transfer(alice, bob, 200)` returns; afterwards `alice`
holds 300, `bob` holds 200 and `GetSupply` still reads 500. -/
theorem Transfer_postcondition_witness :
    (∃ fromA toA, getState "alice" (begin aliceAndBob).ledger.accounts = some fromA ∧
      getState "bob" (begin aliceAndBob).ledger.accounts = some toA ∧
      getState "alice" (Transfer org2 "alice" "bob" 200 "" (begin aliceAndBob)).2.ledger.accounts
        = some { fromA with balance := fromA.balance - 200 } ∧
      getState "bob" (Transfer org2 "alice" "bob" 200 "" (begin aliceAndBob)).2.ledger.accounts
        = some { toA with balance := toA.balance + 200 } ∧
      (∀ c, c ≠ "alice" → c ≠ "bob" →
        getState c (Transfer org2 "alice" "bob" 200 "" (begin aliceAndBob)).2.ledger.accounts
          = getState c (begin aliceAndBob).ledger.accounts) ∧
      (Transfer org2 "alice" "bob" 200 "" (begin aliceAndBob)).2.ledger.supply
        = (begin aliceAndBob).ledger.supply ∧
      (Transfer org2 "alice" "bob" 200 "" (begin aliceAndBob)).2.ledger.reserves
        = (begin aliceAndBob).ledger.reserves) ∧
    balanceOf aliceAndBob "alice" = 500 ∧ balanceOf aliceAndBob "bob" = 0 ∧
    balanceOf (commit (Transfer org2 "alice" "bob" 200 "") aliceAndBob) "alice" = 300 ∧
    balanceOf (commit (Transfer org2 "alice" "bob" 200 "") aliceAndBob) "bob" = 200 ∧
    result GetSupply (commit (Transfer org2 "alice" "bob" 200 "") aliceAndBob)
      = Except.ok 500 :=
  ⟨Transfer_postcondition org2 "alice" "bob" 200 "" (begin aliceAndBob)
      (Transfer org2 "alice" "bob" 200 "" (begin aliceAndBob)).2
      "Transferred 200 from alice to bob" (by decide) rfl,
    rfl, rfl, rfl, rfl, rfl⟩

/-- C9: if `Mint(to, amount)` returns, then the record of the recipient after the call is
its record before with the balance raised by `amount`, the Supply read after the call is the
Supply read before plus `amount`, and the record under `RESERVES` and every other account
record are as they were. -/
theorem Mint_postcondition (ctx : Ctx) (toId : String) (amount : Int) (w w' : TxState)
    (r : String) (h : Mint ctx toId amount w = (Except.ok r, w')) :
    ∃ a, getState toId w.ledger.accounts = some a ∧
      getState toId w'.ledger.accounts = some { a with balance := a.balance + amount } ∧
      supplyValue w'.ledger = supplyValue w.ledger + amount ∧
      w'.ledger.reserves = w.ledger.reserves ∧
      (∀ c, c ≠ toId → getState c w'.ledger.accounts = getState c w.ledger.accounts) := by
  obtain ⟨a, ha, _, hw⟩ := Mint_ok_inv ctx toId amount w w' r h
  subst hw
  refine ⟨a, ha, ?_, rfl, rfl, ?_⟩
  · simp only [afterMint]
    rw [getState_putState_same]
  · intro c hc
    simp only [afterMint]
    rw [getState_putState_ne toId c _ _ hc]

/-- Witness of C9: in the scenario, `Mint(alice, 500)` by the issuer returns; afterwards
`alice` holds 500 and `GetSupply` reads 500. -/
theorem Mint_postcondition_witness :
    (∃ a, getState "alice" (begin aliceVerified).ledger.accounts = some a ∧
      getState "alice" (Mint issuer "alice" 500 (begin aliceVerified)).2.ledger.accounts
        = some { a with balance := a.balance + 500 } ∧
      supplyValue (Mint issuer "alice" 500 (begin aliceVerified)).2.ledger
        = supplyValue (begin aliceVerified).ledger + 500 ∧
      (Mint issuer "alice" 500 (begin aliceVerified)).2.ledger.reserves
        = (begin aliceVerified).ledger.reserves ∧
      (∀ c, c ≠ "alice" →
        getState c (Mint issuer "alice" 500 (begin aliceVerified)).2.ledger.accounts
          = getState c (begin aliceVerified).ledger.accounts)) ∧
    balanceOf (commit (Mint issuer "alice" 500) aliceVerified) "alice" = 500 ∧
    result GetSupply (commit (Mint issuer "alice" 500) aliceVerified) = Except.ok 500 :=
  ⟨Mint_postcondition issuer "alice" 500 (begin aliceVerified)
      (Mint issuer "alice" 500 (begin aliceVerified)).2 "Minted 500 to alice" rfl,
    rfl, rfl⟩

/-! ## Authorization -/

/-- C10: for a caller whose identity is not `Org1MSP`, `SetReserveReport` and `Mint` throw
their issuer-only error, whatever the arguments, with nothing written and no event set. -/
theorem issuer_only_authorization (ctx : Ctx) (h : _getMSPId ctx ≠ "Org1MSP")
    (w : TxState) (reported : Int) (toId : String) (amount : Int) :
    SetReserveReport ctx reported w
        = (Except.error "Only issuer (Org1MSP) may set reserves", w) ∧
      Mint ctx toId amount w = (Except.error "Only issuer (Org1MSP) may mint", w) := by
  constructor
  · rw [SetReserveReport_eq]
    simp [h]
  · rw [Mint_eq]
    simp [h]

/-- Witness of C10: in the scenario ledger, a caller of `Org2MSP` can neither report reserves
nor mint to the verified `alice`, and a caller without an MSP id cannot either. -/
theorem issuer_only_authorization_witness :
    (SetReserveReport org2 5000 (begin aliceVerified)
        = (Except.error "Only issuer (Org1MSP) may set reserves", begin aliceVerified) ∧
      Mint org2 "alice" 500 (begin aliceVerified)
        = (Except.error "Only issuer (Org1MSP) may mint", begin aliceVerified)) ∧
    (SetReserveReport anonymous 5000 (begin aliceVerified)
        = (Except.error "Only issuer (Org1MSP) may set reserves", begin aliceVerified) ∧
      Mint anonymous "alice" 500 (begin aliceVerified)
        = (Except.error "Only issuer (Org1MSP) may mint", begin aliceVerified)) :=
  ⟨issuer_only_authorization org2 (by decide) (begin aliceVerified) 5000 "alice" 500,
    issuer_only_authorization anonymous (by decide) (begin aliceVerified) 5000 "alice" 500⟩

/-! ## Reserve reports -/

/-- C11 (as amended): `SetReserveReport` checks the caller only: for every integer amount,
negative ones included, the call of the issuer returns, the record under `RESERVES` becomes
the amount with the MSP id of the caller and the timestamp of the transaction, the accounts
and the supply are as they were, and the event `ReserveUpdated` is set. -/
theorem SetReserveReport_by_issuer (ctx : Ctx) (amount : Int) (w : TxState)
    (hiss : _getMSPId ctx = "Org1MSP") :
    ∃ w' : TxState,
      SetReserveReport ctx amount w = (Except.ok ("Reserves set to " ++ toString amount), w') ∧
      w'.ledger.reserves
        = some { value := amount, «by» := _getMSPId ctx, ts := ctx.txTimestamp } ∧
      w'.ledger.accounts = w.ledger.accounts ∧ w'.ledger.supply = w.ledger.supply ∧
      w'.event = some (Event.ReserveUpdated amount) := by
  rw [SetReserveReport_eq]
  simp [hiss]

/-- Witness of C11: in the scenario ledger a report of 250 by the issuer returns and replaces
the record under `RESERVES`. -/
theorem SetReserveReport_by_issuer_witness :
    ∃ w' : TxState,
      SetReserveReport issuer 250 (begin aliceVerified)
        = (Except.ok ("Reserves set to " ++ toString (250 : Int)), w') ∧
      w'.ledger.reserves
        = some { value := 250, «by» := _getMSPId issuer, ts := issuer.txTimestamp } ∧
      w'.ledger.accounts = (begin aliceVerified).ledger.accounts ∧
      w'.ledger.supply = (begin aliceVerified).ledger.supply ∧
      w'.event = some (Event.ReserveUpdated 250) :=
  SetReserveReport_by_issuer issuer 250 (begin aliceVerified) rfl

/-- C11 (counterexample): in the scenario ledger, where Reserves are 1000, the issuer reports
the amount -5; the call returns, and the record under `RESERVES` holds -5 afterwards. -/
theorem SetReserveReport_accepts_negative :
    aliceVerified.reserves
        = some { value := 1000, «by» := "Org1MSP", ts := issuer.txTimestamp } ∧
      result (SetReserveReport issuer (-5)) aliceVerified = Except.ok "Reserves set to -5" ∧
      (commit (SetReserveReport issuer (-5)) aliceVerified).reserves
        = some { value := -5, «by» := "Org1MSP", ts := issuer.txTimestamp } ∧
      result GetReserves (commit (SetReserveReport issuer (-5)) aliceVerified)
        = Except.ok (-5) :=
  ⟨rfl, rfl, rfl, rfl⟩

/-- C12 (the code at the failing input): in the scenario ledger the record under `RESERVES`
is the issuer's report of 1000; a caller of `Org2MSP` invokes `InitLedger`, the call returns,
and the record under `RESERVES` becomes a value of 0 attributed to `Org2MSP`. -/
theorem InitLedger_by_other_org_rewrites_reserves :
    _getMSPId org2 = "Org2MSP" ∧
      aliceVerified.reserves
        = some { value := 1000, «by» := "Org1MSP", ts := issuer.txTimestamp } ∧
      result (invoke org2 Call.InitLedger) aliceVerified
        = Except.ok (Ret.msg "Initialized 2 accounts") ∧
      (commit (invoke org2 Call.InitLedger) aliceVerified).reserves
        = some { value := 0, «by» := "Org2MSP", ts := org2.txTimestamp } ∧
      Reachable (commit (invoke org2 Call.InitLedger) aliceVerified) :=
  ⟨rfl, rfl, rfl, rfl,
    reachable_run [(org2, Call.RegisterAccount "alice"), (org2, Call.SubmitKYC "alice" "h1"),
      (org2, Call.VerifyKYC "alice"), (issuer, Call.SetReserveReport 1000),
      (org2, Call.InitLedger)]⟩

/-! ## Balances are never negative -/

theorem mem_putState (id : String) (a : Account) (l : List (String × Account))
    (e : String × Account) (he : e ∈ putState id a l) : e = (id, a) ∨ e ∈ l := by
  induction l with
  | nil => simpa [putState] using he
  | cons x rest ih =>
    obtain ⟨k, v⟩ := x
    by_cases hk : k = id
    · simp only [putState, hk, if_true, List.mem_cons] at he
      rcases he with he | he
      · exact Or.inl he
      · exact Or.inr (List.mem_cons_of_mem _ he)
    · simp only [putState, hk, if_false, List.mem_cons] at he
      rcases he with he | he
      · exact Or.inr (he ▸ List.mem_cons_self _ _)
      · rcases ih he with h | h
        · exact Or.inl h
        · exact Or.inr (List.mem_cons_of_mem _ h)

theorem mem_of_getState (id : String) (a : Account) (l : List (String × Account))
    (h : getState id l = some a) : (id, a) ∈ l := by
  induction l with
  | nil => simp [getState] at h
  | cons x rest ih =>
    obtain ⟨k, v⟩ := x
    by_cases hk : k = id
    · simp only [getState, hk, if_true, Option.some.injEq] at h
      subst hk h
      exact List.mem_cons_self _ _
    · simp only [getState, hk, if_false] at h
      exact List.mem_cons_of_mem _ (ih h)

theorem nonNeg_withAccount (s : Ledger) (id : String) (a : Account)
    (hs : NonNegBalances s) (ha : 0 ≤ a.balance) : NonNegBalances (withAccount s id a) := by
  intro e he
  rcases mem_putState id a s.accounts e he with h | h
  · rw [h]
    exact ha
  · exact hs e h

theorem nonNeg_of_getState (s : Ledger) (id : String) (a : Account)
    (hs : NonNegBalances s) (h : getState id s.accounts = some a) : 0 ≤ a.balance :=
  hs (id, a) (mem_of_getState id a s.accounts h)

theorem nonNeg_step (s : Ledger) (ctx : Ctx) (c : Call) (hs : NonNegBalances s) :
    NonNegBalances (commit (invoke ctx c) s) := by
  cases c with
  | RegisterAccount id =>
    simp only [invoke, commit_bind_pure, commit_RegisterAccount]
    cases h : getState id s.accounts with
    | none => exact nonNeg_withAccount s id _ hs (le_refl 0)
    | some a => exact hs
  | SubmitKYC id kycHash =>
    simp only [invoke, commit_bind_pure, commit_SubmitKYC]
    cases h : getState id s.accounts with
    | none => exact hs
    | some a => exact nonNeg_withAccount s id _ hs (nonNeg_of_getState s id a hs h)
  | VerifyKYC id =>
    simp only [invoke, commit_bind_pure, commit_VerifyKYC]
    cases h : getState id s.accounts with
    | none => exact hs
    | some a => exact nonNeg_withAccount s id _ hs (nonNeg_of_getState s id a hs h)
  | FreezeAccount id =>
    simp only [invoke, commit_bind_pure, commit_FreezeAccount]
    cases h : getState id s.accounts with
    | none => exact hs
    | some a =>
      dsimp only
      split_ifs
      · exact hs
      · exact nonNeg_withAccount s id _ hs (nonNeg_of_getState s id a hs h)
  | UnfreezeAccount id =>
    simp only [invoke, commit_bind_pure, commit_UnfreezeAccount]
    cases h : getState id s.accounts with
    | none => exact hs
    | some a =>
      dsimp only
      split_ifs
      · exact hs
      · exact nonNeg_withAccount s id _ hs (nonNeg_of_getState s id a hs h)
  | SanctionAccount id =>
    simp only [invoke, commit_bind_pure, commit_SanctionAccount]
    cases h : getState id s.accounts with
    | none => exact hs
    | some a => exact nonNeg_withAccount s id _ hs (nonNeg_of_getState s id a hs h)
  | UnsanctionAccount id =>
    simp only [invoke, commit_bind_pure, commit_UnsanctionAccount]
    cases h : getState id s.accounts with
    | none => exact hs
    | some a => exact nonNeg_withAccount s id _ hs (nonNeg_of_getState s id a hs h)
  | SetReserveReport amount =>
    simp only [invoke, commit_bind_pure, commit_SetReserveReport]
    split_ifs
    · exact hs
    · exact hs
  | Mint toId amount =>
    simp only [invoke, commit_bind_pure, commit_Mint]
    cases h : getState toId s.accounts with
    | none => exact hs
    | some a =>
      dsimp only
      split_ifs with hok
      · have ha := nonNeg_of_getState s toId a hs h
        have hpos : 0 < amount := hok.2.1
        intro e he
        rcases mem_putState toId _ s.accounts e he with h' | h'
        · rw [h']
          show 0 ≤ a.balance + amount
          omega
        · exact hs e h'
      · exact hs
  | Transfer fromId toId amount travelRuleHash =>
    simp only [invoke, commit_bind_pure, commit_Transfer]
    cases hf : getState fromId s.accounts with
    | none => exact hs
    | some fromA =>
      cases ht : getState toId s.accounts with
      | none => exact hs
      | some toA =>
        dsimp only
        split_ifs with hok
        · have hfa := nonNeg_of_getState s fromId fromA hs hf
          have hta := nonNeg_of_getState s toId toA hs ht
          obtain ⟨hpos, _, _, _, _, _, _, hle⟩ := hok
          refine nonNeg_withAccount _ toId _ (nonNeg_withAccount s fromId _ hs ?_) ?_
          · show 0 ≤ fromA.balance - amount
            omega
          · show 0 ≤ toA.balance + amount
            omega
        · exact hs
  | InitLedger =>
    simp only [invoke, commit_bind_pure, commit_InitLedger]
    intro e he
    rcases mem_putState _ _ _ e he with h | h
    · subst h
      exact le_refl 0
    · rcases mem_putState _ _ _ e h with h' | h'
      · subst h'
        exact le_refl 0
      · exact hs e h'
  | GetAccount id => simpa only [invoke, commit_bind_pure, commit_GetAccount] using hs
  | GetAllAccounts => simpa only [invoke, commit_bind_pure, commit_GetAllAccounts] using hs
  | GetSupply => simpa only [invoke, commit_bind_pure, commit_GetSupply] using hs
  | GetReserves => simpa only [invoke, commit_bind_pure, commit_GetReserves] using hs
  | GetStats => simpa only [invoke, commit_bind_pure, commit_GetStats] using hs

/-- C13: in every state reachable from the empty ledger by any invocations, every account
record holds a balance of 0 or more; so does every record that `getState` finds. -/
theorem balances_never_negative (s : Ledger) (h : Reachable s) :
    (∀ e ∈ s.accounts, 0 ≤ e.2.balance) ∧
      ∀ (id : String) (a : Account), getState id s.accounts = some a → 0 ≤ a.balance := by
  have hs : NonNegBalances s := by
    induction h with
    | init => intro e he; exact absurd he (List.not_mem_nil e)
    | step s ctx c _ _ ih => exact nonNeg_step s ctx c ih
  exact ⟨hs, fun id a ha => nonNeg_of_getState s id a hs ha⟩

/-- Witness of C13: the state reached after `Transfer(chetan, chetan, 200)` in
`chetanHolds500` and a transfer of all 700 to `treasury` is reachable, and its balances are
0 and 700. -/
theorem balances_never_negative_witness :
    Reachable (run [(issuer, Call.InitLedger), (issuer, Call.SetReserveReport 1000),
        (issuer, Call.Mint "chetan" 500), (org2, Call.Transfer "chetan" "chetan" 200 ""),
        (org2, Call.Transfer "chetan" "treasury" 700 "")] emptyLedger) ∧
      ((∀ e ∈ (run [(issuer, Call.InitLedger), (issuer, Call.SetReserveReport 1000),
          (issuer, Call.Mint "chetan" 500), (org2, Call.Transfer "chetan" "chetan" 200 ""),
          (org2, Call.Transfer "chetan" "treasury" 700 "")] emptyLedger).accounts,
          0 ≤ e.2.balance) ∧
        ∀ (id : String) (a : Account),
          getState id (run [(issuer, Call.InitLedger), (issuer, Call.SetReserveReport 1000),
            (issuer, Call.Mint "chetan" 500), (org2, Call.Transfer "chetan" "chetan" 200 ""),
            (org2, Call.Transfer "chetan" "treasury" 700 "")] emptyLedger).accounts = some a →
          0 ≤ a.balance) ∧
      (run [(issuer, Call.InitLedger), (issuer, Call.SetReserveReport 1000),
          (issuer, Call.Mint "chetan" 500), (org2, Call.Transfer "chetan" "chetan" 200 ""),
          (org2, Call.Transfer "chetan" "treasury" 700 "")] emptyLedger).accounts.map
        (fun e => (e.1, e.2.balance)) = [("treasury", 700), ("chetan", 0)] :=
  ⟨reachable_run _, balances_never_negative _ (reachable_run _), rfl⟩

/-! ## Failure atomicity -/

theorem error_of_bind_pure {α β : Type} (t : Tx α) (f : α → β) (w w' : TxState) (e : String)
    (h : (t >>= fun r => pure (f r)) w = (Except.error e, w')) :
    t w = (Except.error e, w') := by
  simp only [bind, pure] at h
  rcases ht : t w with ⟨r, w1⟩
  rw [ht] at h
  cases r with
  | error e1 => simpa using h
  | ok a => exact absurd (congrArg Prod.fst h) (by simp)

theorem RegisterAccount_error_state (ctx : Ctx) (id : String) (w w' : TxState) (e : String)
    (h : RegisterAccount ctx id w = (Except.error e, w')) : w' = w := by
  rw [RegisterAccount_eq] at h
  split at h <;> exact absurd (congrArg Prod.fst h) (by simp)

theorem SubmitKYC_error_state (id kycHash : String) (w w' : TxState) (e : String)
    (h : SubmitKYC id kycHash w = (Except.error e, w')) : w' = w := by
  rw [SubmitKYC_eq] at h
  split at h
  · exact (congrArg Prod.snd h).symm
  · exact absurd (congrArg Prod.fst h) (by simp)

theorem VerifyKYC_error_state (id : String) (w w' : TxState) (e : String)
    (h : VerifyKYC id w = (Except.error e, w')) : w' = w := by
  rw [VerifyKYC_eq] at h
  split at h
  · exact (congrArg Prod.snd h).symm
  · exact absurd (congrArg Prod.fst h) (by simp)

theorem FreezeAccount_error_state (id : String) (w w' : TxState) (e : String)
    (h : FreezeAccount id w = (Except.error e, w')) : w' = w := by
  rw [FreezeAccount_eq] at h
  split at h
  · exact (congrArg Prod.snd h).symm
  · split_ifs at h <;> exact absurd (congrArg Prod.fst h) (by simp)

theorem UnfreezeAccount_error_state (id : String) (w w' : TxState) (e : String)
    (h : UnfreezeAccount id w = (Except.error e, w')) : w' = w := by
  rw [UnfreezeAccount_eq] at h
  split at h
  · exact (congrArg Prod.snd h).symm
  · split_ifs at h <;> exact absurd (congrArg Prod.fst h) (by simp)

theorem SanctionAccount_error_state (id : String) (w w' : TxState) (e : String)
    (h : SanctionAccount id w = (Except.error e, w')) : w' = w := by
  rw [SanctionAccount_eq] at h
  split at h
  · exact (congrArg Prod.snd h).symm
  · exact absurd (congrArg Prod.fst h) (by simp)

theorem UnsanctionAccount_error_state (id : String) (w w' : TxState) (e : String)
    (h : UnsanctionAccount id w = (Except.error e, w')) : w' = w := by
  rw [UnsanctionAccount_eq] at h
  split at h
  · exact (congrArg Prod.snd h).symm
  · exact absurd (congrArg Prod.fst h) (by simp)

theorem SetReserveReport_error_state (ctx : Ctx) (amount : Int) (w w' : TxState) (e : String)
    (h : SetReserveReport ctx amount w = (Except.error e, w')) : w' = w := by
  rw [SetReserveReport_eq] at h
  split_ifs at h
  · exact (congrArg Prod.snd h).symm
  · exact absurd (congrArg Prod.fst h) (by simp)

theorem Mint_error_state (ctx : Ctx) (toId : String) (amount : Int) (w w' : TxState)
    (e : String) (h : Mint ctx toId amount w = (Except.error e, w')) : w' = w := by
  rw [Mint_eq] at h
  split_ifs at h
  · exact (congrArg Prod.snd h).symm
  · exact (congrArg Prod.snd h).symm
  · exact (congrArg Prod.snd h).symm
  · split at h
    · exact (congrArg Prod.snd h).symm
    · split_ifs at h
      · exact (congrArg Prod.snd h).symm
      · exact (congrArg Prod.snd h).symm
      · exact absurd (congrArg Prod.fst h) (by simp)

theorem Transfer_error_state (ctx : Ctx) (fromId toId : String) (amount : Int)
    (travelRuleHash : String) (w w' : TxState) (e : String)
    (h : Transfer ctx fromId toId amount travelRuleHash w = (Except.error e, w')) :
    w' = w := by
  rcases Transfer_total ctx fromId toId amount travelRuleHash w with ⟨r, w1, h1⟩ | ⟨e1, h1⟩
  · rw [h1] at h
    exact absurd (congrArg Prod.fst h) (by simp)
  · rw [h1] at h
    exact (congrArg Prod.snd h).symm

theorem GetAccount_error_state (id : String) (w w' : TxState) (e : String)
    (h : GetAccount id w = (Except.error e, w')) : w' = w := by
  simp only [GetAccount, _readAccount, _readJSON, stubGetState, bind, pure] at h
  cases hg : getState id w.ledger.accounts with
  | none =>
    rw [hg] at h
    exact (congrArg Prod.snd h).symm
  | some a =>
    rw [hg] at h
    exact absurd (congrArg Prod.fst h) (by simp)

/-- C14: whenever an invocation of the contract throws, the transaction state at the throw
is the state the transaction started with: no record has been written and no event has been
set before the error, so the ledger after the call is the ledger before it and the event is
the one (none, at the start of a transaction) there was before. -/
theorem failure_atomicity (ctx : Ctx) (c : Call) (w w' : TxState) (e : String)
    (h : invoke ctx c w = (Except.error e, w')) :
    w' = w ∧ w'.ledger = w.ledger ∧ w'.event = w.event := by
  have hw : ∀ (v v' : TxState) (e' : String),
      invoke ctx c v = (Except.error e', v') → v' = v := by
    intro v v' e' hv
    cases c with
    | RegisterAccount id =>
      exact RegisterAccount_error_state ctx id v v' e' (error_of_bind_pure _ _ v v' e' hv)
    | SubmitKYC id kycHash =>
      exact SubmitKYC_error_state id kycHash v v' e' (error_of_bind_pure _ _ v v' e' hv)
    | VerifyKYC id =>
      exact VerifyKYC_error_state id v v' e' (error_of_bind_pure _ _ v v' e' hv)
    | FreezeAccount id =>
      exact FreezeAccount_error_state id v v' e' (error_of_bind_pure _ _ v v' e' hv)
    | UnfreezeAccount id =>
      exact UnfreezeAccount_error_state id v v' e' (error_of_bind_pure _ _ v v' e' hv)
    | SanctionAccount id =>
      exact SanctionAccount_error_state id v v' e' (error_of_bind_pure _ _ v v' e' hv)
    | UnsanctionAccount id =>
      exact UnsanctionAccount_error_state id v v' e' (error_of_bind_pure _ _ v v' e' hv)
    | SetReserveReport amount =>
      exact SetReserveReport_error_state ctx amount v v' e' (error_of_bind_pure _ _ v v' e' hv)
    | Mint toId amount =>
      exact Mint_error_state ctx toId amount v v' e' (error_of_bind_pure _ _ v v' e' hv)
    | Transfer fromId toId amount travelRuleHash =>
      exact Transfer_error_state ctx fromId toId amount travelRuleHash v v' e'
        (error_of_bind_pure _ _ v v' e' hv)
    | InitLedger =>
      have h1 := error_of_bind_pure _ _ v v' e' hv
      rw [InitLedger_eq] at h1
      exact absurd (congrArg Prod.fst h1) (by simp)
    | GetAccount id =>
      exact GetAccount_error_state id v v' e' (error_of_bind_pure _ _ v v' e' hv)
    | GetAllAccounts =>
      have h1 := error_of_bind_pure _ _ v v' e' hv
      exact absurd (congrArg Prod.fst h1) (by simp [GetAllAccounts])
    | GetSupply =>
      have h1 := error_of_bind_pure _ _ v v' e' hv
      exact absurd (congrArg Prod.fst h1) (by simp [GetSupply, _getSupply, bind, pure])
    | GetReserves =>
      have h1 := error_of_bind_pure _ _ v v' e' hv
      exact absurd (congrArg Prod.fst h1) (by simp [GetReserves, _getReserves, bind, pure])
    | GetStats =>
      have h1 := error_of_bind_pure _ _ v v' e' hv
      exact absurd (congrArg Prod.fst h1)
        (by simp [GetStats, _getSupply, _getReserves, bind, pure])
  have h1 := hw w w' e h
  subst h1
  exact ⟨rfl, rfl, rfl⟩

/-- Witness of C14: in the scenario, `Transfer(alice, bob, 900)` throws for lack of balance
and `VerifyKYC(carol)` throws for lack of an account; each leaves the transaction state as
it started, with no event. -/
theorem failure_atomicity_witness :
    (invoke org2 (Call.Transfer "alice" "bob" 900 "") (begin aliceAndBob)).1
        = Except.error "Insufficient balance" ∧
      ((invoke org2 (Call.Transfer "alice" "bob" 900 "") (begin aliceAndBob)).2
          = begin aliceAndBob ∧
        (invoke org2 (Call.Transfer "alice" "bob" 900 "") (begin aliceAndBob)).2.ledger
          = aliceAndBob ∧
        (invoke org2 (Call.Transfer "alice" "bob" 900 "") (begin aliceAndBob)).2.event
          = none) ∧
      (invoke org2 (Call.VerifyKYC "carol") (begin aliceAndBob)).1
        = Except.error "Account carol not found" ∧
      ((invoke org2 (Call.VerifyKYC "carol") (begin aliceAndBob)).2 = begin aliceAndBob ∧
        (invoke org2 (Call.VerifyKYC "carol") (begin aliceAndBob)).2.ledger = aliceAndBob ∧
        (invoke org2 (Call.VerifyKYC "carol") (begin aliceAndBob)).2.event = none) :=
  ⟨rfl,
    failure_atomicity org2 (Call.Transfer "alice" "bob" 900 "") (begin aliceAndBob)
      (invoke org2 (Call.Transfer "alice" "bob" 900 "") (begin aliceAndBob)).2
      "Insufficient balance" rfl,
    rfl,
    failure_atomicity org2 (Call.VerifyKYC "carol") (begin aliceAndBob)
      (invoke org2 (Call.VerifyKYC "carol") (begin aliceAndBob)).2
      "Account carol not found" rfl⟩

/-! ## Duplicate registration -/

/-- C15 (as amended): when an account record for `id` is present, `RegisterAccount(id)` does
not throw: it returns the message that the account already exists, with nothing written and
no event set, so every record is as it was; and from a state where `id` is absent,
registering it twice (by any callers) gives the state that registering it once gives. -/
theorem RegisterAccount_duplicate (ctx ctx' : Ctx) (id : String) :
    (∀ (w : TxState) (a : Account), getState id w.ledger.accounts = some a →
      RegisterAccount ctx id w = (Except.ok ("Account " ++ id ++ " already exists"), w)) ∧
    (∀ s : Ledger, getState id s.accounts = none →
      commit (RegisterAccount ctx' id) (commit (RegisterAccount ctx id) s)
        = commit (RegisterAccount ctx id) s) := by
  constructor
  · intro w a ha
    rw [RegisterAccount_eq, ha]
  · intro s hs
    rw [commit_RegisterAccount ctx id s, hs]
    dsimp only
    rw [commit_RegisterAccount]
    simp only [withAccount, getState_putState_same]

/-- Witness of C15: in the scenario ledger `alice` is registered, and a second
`RegisterAccount(alice)` returns its message and stages nothing; on the empty ledger,
registering `alice` twice gives the state of registering her once. -/
theorem RegisterAccount_duplicate_witness :
    RegisterAccount issuer "alice" (begin aliceVerified)
        = (Except.ok ("Account " ++ "alice" ++ " already exists"), begin aliceVerified) ∧
      commit (RegisterAccount issuer "alice") (commit (RegisterAccount org2 "alice") emptyLedger)
        = commit (RegisterAccount org2 "alice") emptyLedger :=
  ⟨(RegisterAccount_duplicate issuer issuer "alice").1 (begin aliceVerified) _ rfl,
    (RegisterAccount_duplicate org2 issuer "alice").2 emptyLedger rfl⟩

/-- C15 (counterexample): in the scenario ledger, where `alice` is registered,
`RegisterAccount(alice)` gives a result that is a returned message and not an error. -/
theorem RegisterAccount_duplicate_returns :
    (getState "alice" aliceVerified.accounts).isSome = true ∧
      result (RegisterAccount org2 "alice") aliceVerified
        = Except.ok "Account alice already exists" ∧
      ¬ ∃ e : String, result (RegisterAccount org2 "alice") aliceVerified = Except.error e := by
  refine ⟨rfl, rfl, ?_⟩
  rintro ⟨e, he⟩
  have h : result (RegisterAccount org2 "alice") aliceVerified
      = Except.ok "Account alice already exists" := rfl
  rw [h] at he
  exact absurd he (by simp)

/-! ## The KYC status -/

theorem verifiedIn_putState (l : List (String × Account)) (id id' : String) (a' : Account)
    (hv : VerifiedIn l id) (hk : id' = id → a'.kycStatus = "VERIFIED") :
    VerifiedIn (putState id' a' l) id := by
  by_cases h : id = id'
  · subst h
    exact ⟨a', getState_putState_same id a' l, hk rfl⟩
  · obtain ⟨a, ha, hva⟩ := hv
    exact ⟨a, by rw [getState_putState_ne id' id a' l h]; exact ha, hva⟩

theorem verifiedIn_update (l : List (String × Account)) (id id' : String) (a0 a' : Account)
    (hv : VerifiedIn l id) (h0 : getState id' l = some a0)
    (hk : a'.kycStatus = a0.kycStatus) : VerifiedIn (putState id' a' l) id := by
  apply verifiedIn_putState l id id' a' hv
  intro heq
  subst heq
  obtain ⟨a, ha, hva⟩ := hv
  rw [h0] at ha
  injection ha with ha
  subst ha
  rw [hk, hva]

/-- C16 (as amended): when account `id` has kycStatus VERIFIED, it still has kycStatus
VERIFIED after every invocation other than `SubmitKYC` on that id, whoever calls and
whatever the arguments; `SubmitKYC` on that id returns and sets the kycStatus back to
SUBMITTED. -/
theorem verified_kept_except_by_SubmitKYC (s : Ledger) (id : String)
    (hv : VerifiedIn s.accounts id) :
    (∀ (ctx : Ctx) (c : Call), (∀ kycHash, c ≠ Call.SubmitKYC id kycHash) →
      VerifiedIn (commit (invoke ctx c) s).accounts id) ∧
    (∀ (ctx : Ctx) (kycHash : String),
      ∃ a', getState id (commit (invoke ctx (Call.SubmitKYC id kycHash)) s).accounts = some a' ∧
        a'.kycStatus = "SUBMITTED") := by
  constructor
  · intro ctx c hc
    cases c with
    | RegisterAccount id' =>
      simp only [invoke, commit_bind_pure, commit_RegisterAccount]
      cases h : getState id' s.accounts with
      | some a0 => exact hv
      | none =>
        apply verifiedIn_putState s.accounts id id' _ hv
        intro heq
        subst heq
        obtain ⟨a, ha, _⟩ := hv
        rw [h] at ha
        exact absurd ha (by simp)
    | SubmitKYC id' kycHash =>
      have hne : id' ≠ id := fun heq => hc kycHash (by rw [heq])
      simp only [invoke, commit_bind_pure, commit_SubmitKYC]
      cases h : getState id' s.accounts with
      | none => exact hv
      | some a0 => exact verifiedIn_putState s.accounts id id' _ hv (fun heq => absurd heq hne)
    | VerifyKYC id' =>
      simp only [invoke, commit_bind_pure, commit_VerifyKYC]
      cases h : getState id' s.accounts with
      | none => exact hv
      | some a0 => exact verifiedIn_putState s.accounts id id' _ hv (fun _ => rfl)
    | FreezeAccount id' =>
      simp only [invoke, commit_bind_pure, commit_FreezeAccount]
      cases h : getState id' s.accounts with
      | none => exact hv
      | some a0 =>
        dsimp only
        split_ifs
        · exact hv
        · exact verifiedIn_update s.accounts id id' a0 _ hv h rfl
    | UnfreezeAccount id' =>
      simp only [invoke, commit_bind_pure, commit_UnfreezeAccount]
      cases h : getState id' s.accounts with
      | none => exact hv
      | some a0 =>
        dsimp only
        split_ifs
        · exact hv
        · exact verifiedIn_update s.accounts id id' a0 _ hv h rfl
    | SanctionAccount id' =>
      simp only [invoke, commit_bind_pure, commit_SanctionAccount]
      cases h : getState id' s.accounts with
      | none => exact hv
      | some a0 => exact verifiedIn_update s.accounts id id' a0 _ hv h rfl
    | UnsanctionAccount id' =>
      simp only [invoke, commit_bind_pure, commit_UnsanctionAccount]
      cases h : getState id' s.accounts with
      | none => exact hv
      | some a0 => exact verifiedIn_update s.accounts id id' a0 _ hv h rfl
    | SetReserveReport amount =>
      simp only [invoke, commit_bind_pure, commit_SetReserveReport]
      split_ifs
      · exact hv
      · exact hv
    | Mint toId amount =>
      simp only [invoke, commit_bind_pure, commit_Mint]
      cases h : getState toId s.accounts with
      | none => exact hv
      | some a0 =>
        dsimp only
        split_ifs
        · exact verifiedIn_update s.accounts id toId a0 _ hv h rfl
        · exact hv
    | Transfer fromId toId amount travelRuleHash =>
      simp only [invoke, commit_bind_pure, commit_Transfer]
      cases hf : getState fromId s.accounts with
      | none => exact hv
      | some fromA =>
        cases ht : getState toId s.accounts with
        | none => exact hv
        | some toA =>
          dsimp only
          split_ifs with hok
          · exact verifiedIn_putState _ id toId _
              (verifiedIn_update s.accounts id fromId fromA _ hv hf rfl)
              (fun _ => hok.2.2.1)
          · exact hv
    | InitLedger =>
      simp only [invoke, commit_bind_pure, commit_InitLedger]
      exact verifiedIn_putState _ id "chetan" _
        (verifiedIn_putState s.accounts id "treasury" _ hv (fun _ => rfl)) (fun _ => rfl)
    | GetAccount id' => simpa only [invoke, commit_bind_pure, commit_GetAccount] using hv
    | GetAllAccounts => simpa only [invoke, commit_bind_pure, commit_GetAllAccounts] using hv
    | GetSupply => simpa only [invoke, commit_bind_pure, commit_GetSupply] using hv
    | GetReserves => simpa only [invoke, commit_bind_pure, commit_GetReserves] using hv
    | GetStats => simpa only [invoke, commit_bind_pure, commit_GetStats] using hv
  · intro ctx kycHash
    obtain ⟨a, ha, _⟩ := hv
    simp only [invoke, commit_bind_pure, commit_SubmitKYC, ha, withAccount]
    exact ⟨_, getState_putState_same id _ s.accounts, rfl⟩

/-- Witness of C16: in the scenario ledger `alice` is VERIFIED; she still is after
`FreezeAccount(alice)`, and after `SubmitKYC(alice, h3)` her kycStatus is SUBMITTED. -/
theorem verified_kept_except_by_SubmitKYC_witness :
    VerifiedIn aliceVerified.accounts "alice" ∧
      VerifiedIn (commit (invoke org2 (Call.FreezeAccount "alice")) aliceVerified).accounts
        "alice" ∧
      ∃ a', getState "alice"
          (commit (invoke org2 (Call.SubmitKYC "alice" "h3")) aliceVerified).accounts = some a' ∧
        a'.kycStatus = "SUBMITTED" :=
  have hv : VerifiedIn aliceVerified.accounts "alice" := ⟨_, rfl, rfl⟩
  ⟨hv,
    (verified_kept_except_by_SubmitKYC aliceVerified "alice" hv).1 org2
      (Call.FreezeAccount "alice") (fun _ h => nomatch h),
    (verified_kept_except_by_SubmitKYC aliceVerified "alice" hv).2 org2 "h3"⟩

/-- C16 (counterexample): in the scenario ledger `alice` has kycStatus VERIFIED;
`SubmitKYC(alice, h3)` returns, and afterwards her kycStatus is SUBMITTED. -/
theorem SubmitKYC_unverifies :
    (getState "alice" aliceVerified.accounts).map (fun a => a.kycStatus) = some "VERIFIED" ∧
      result (invoke org2 (Call.SubmitKYC "alice" "h3")) aliceVerified
        = Except.ok (Ret.msg "KYC submitted for alice") ∧
      (getState "alice"
          (commit (invoke org2 (Call.SubmitKYC "alice" "h3")) aliceVerified).accounts).map
        (fun a => a.kycStatus) = some "SUBMITTED" :=
  ⟨rfl, rfl, rfl⟩

/-- C17 (as amended): `VerifyKYC(id)` returns for every registered account, whatever its
kycStatus and whether or not it has a kycHash; afterwards the record is the record before
with kycStatus VERIFIED, and the event `KYCVerified` is set. -/
theorem VerifyKYC_from_any_status (id : String) (w : TxState) (a : Account)
    (ha : getState id w.ledger.accounts = some a) :
    ∃ w' : TxState, VerifyKYC id w = (Except.ok ("KYC verified for " ++ id), w') ∧
      getState id w'.ledger.accounts = some { a with kycStatus := "VERIFIED" } ∧
      w'.event = some (Event.KYCVerified id) := by
  rw [VerifyKYC_eq, ha]
  exact ⟨_, rfl, getState_putState_same id _ w.ledger.accounts, rfl⟩

/-- Witness of C17: `VerifyKYC(alice)` returns on the ledger in which `alice` has only been
registered. -/
theorem VerifyKYC_from_any_status_witness :
    ∃ w' : TxState,
      VerifyKYC "alice" (begin aliceRegistered)
        = (Except.ok ("KYC verified for " ++ "alice"), w') ∧
      getState "alice" w'.ledger.accounts
        = some { id := "alice", ownerMSP := "Org2MSP", kycStatus := "VERIFIED",
                 kycHash := none, frozen := false, sanctioned := false, balance := 0,
                 meta := [] } ∧
      w'.event = some (Event.KYCVerified "alice") :=
  VerifyKYC_from_any_status "alice" (begin aliceRegistered)
    { id := "alice", ownerMSP := "Org2MSP", kycStatus := "PENDING", kycHash := none,
      frozen := false, sanctioned := false, balance := 0, meta := [] } rfl

/-- C17 (counterexample): `alice` has only been registered, so her kycStatus is PENDING and
she has no kycHash; `VerifyKYC(alice)` returns and leaves her VERIFIED, still without a
kycHash. -/
theorem VerifyKYC_accepts_pending :
    getState "alice" aliceRegistered.accounts
        = some { id := "alice", ownerMSP := "Org2MSP", kycStatus := "PENDING",
                 kycHash := none, frozen := false, sanctioned := false, balance := 0,
                 meta := [] } ∧
      result (invoke org2 (Call.VerifyKYC "alice")) aliceRegistered
        = Except.ok (Ret.msg "KYC verified for alice") ∧
      getState "alice" (commit (invoke org2 (Call.VerifyKYC "alice")) aliceRegistered).accounts
        = some { id := "alice", ownerMSP := "Org2MSP", kycStatus := "VERIFIED",
                 kycHash := none, frozen := false, sanctioned := false, balance := 0,
                 meta := [] } :=
  ⟨rfl, rfl, rfl⟩

/-! ## Who writes balances -/

theorem holdsBalance_putState (l : List (String × Account)) (id id' : String) (a' : Account)
    (b : Int) (hb : HoldsBalance l id b) (hk : id' = id → a'.balance = b) :
    HoldsBalance (putState id' a' l) id b := by
  by_cases h : id = id'
  · subst h
    exact ⟨a', getState_putState_same id a' l, hk rfl⟩
  · obtain ⟨a, ha, hba⟩ := hb
    exact ⟨a, by rw [getState_putState_ne id' id a' l h]; exact ha, hba⟩

theorem holdsBalance_update (l : List (String × Account)) (id id' : String) (a0 a' : Account)
    (b : Int) (hb : HoldsBalance l id b) (h0 : getState id' l = some a0)
    (hk : a'.balance = a0.balance) : HoldsBalance (putState id' a' l) id b := by
  apply holdsBalance_putState l id id' a' b hb
  intro heq
  subst heq
  obtain ⟨a, ha, hba⟩ := hb
  rw [h0] at ha
  injection ha with ha
  subst ha
  rw [hk, hba]

/-- C18 (as amended): an invocation other than `Mint`, `Transfer` and `InitLedger` leaves the
balance of every account that existed before the call as it was; `InitLedger` leaves every
account record other than `treasury` and `chetan` as it was, and sets the balance of those
two to 0. -/
theorem balances_kept_except_by_InitLedger (s : Ledger) (ctx : Ctx) (id : String) (a : Account)
    (ha : getState id s.accounts = some a) :
    (∀ c : Call, keepsBalances c →
      HoldsBalance (commit (invoke ctx c) s).accounts id a.balance) ∧
    (id ≠ "treasury" → id ≠ "chetan" →
      getState id (commit (invoke ctx Call.InitLedger) s).accounts = some a) ∧
    ((id = "treasury" ∨ id = "chetan") →
      HoldsBalance (commit (invoke ctx Call.InitLedger) s).accounts id 0) := by
  have hb : HoldsBalance s.accounts id a.balance := ⟨a, ha, rfl⟩
  refine ⟨fun c hc => ?_, fun h1 h2 => ?_, fun h => ?_⟩
  · cases c with
    | RegisterAccount id' =>
      simp only [invoke, commit_bind_pure, commit_RegisterAccount]
      cases h : getState id' s.accounts with
      | some a0 => exact hb
      | none =>
        apply holdsBalance_putState s.accounts id id' _ _ hb
        intro heq
        subst heq
        rw [h] at ha
        exact absurd ha (by simp)
    | SubmitKYC id' kycHash =>
      simp only [invoke, commit_bind_pure, commit_SubmitKYC]
      cases h : getState id' s.accounts with
      | none => exact hb
      | some a0 => exact holdsBalance_update s.accounts id id' a0 _ _ hb h rfl
    | VerifyKYC id' =>
      simp only [invoke, commit_bind_pure, commit_VerifyKYC]
      cases h : getState id' s.accounts with
      | none => exact hb
      | some a0 => exact holdsBalance_update s.accounts id id' a0 _ _ hb h rfl
    | FreezeAccount id' =>
      simp only [invoke, commit_bind_pure, commit_FreezeAccount]
      cases h : getState id' s.accounts with
      | none => exact hb
      | some a0 =>
        dsimp only
        split_ifs
        · exact hb
        · exact holdsBalance_update s.accounts id id' a0 _ _ hb h rfl
    | UnfreezeAccount id' =>
      simp only [invoke, commit_bind_pure, commit_UnfreezeAccount]
      cases h : getState id' s.accounts with
      | none => exact hb
      | some a0 =>
        dsimp only
        split_ifs
        · exact hb
        · exact holdsBalance_update s.accounts id id' a0 _ _ hb h rfl
    | SanctionAccount id' =>
      simp only [invoke, commit_bind_pure, commit_SanctionAccount]
      cases h : getState id' s.accounts with
      | none => exact hb
      | some a0 => exact holdsBalance_update s.accounts id id' a0 _ _ hb h rfl
    | UnsanctionAccount id' =>
      simp only [invoke, commit_bind_pure, commit_UnsanctionAccount]
      cases h : getState id' s.accounts with
      | none => exact hb
      | some a0 => exact holdsBalance_update s.accounts id id' a0 _ _ hb h rfl
    | SetReserveReport amount =>
      simp only [invoke, commit_bind_pure, commit_SetReserveReport]
      split_ifs
      · exact hb
      · exact hb
    | Mint toId amount => exact absurd hc (by simp [keepsBalances])
    | Transfer fromId toId amount travelRuleHash => exact absurd hc (by simp [keepsBalances])
    | InitLedger => exact absurd hc (by simp [keepsBalances])
    | GetAccount id' => simpa only [invoke, commit_bind_pure, commit_GetAccount] using hb
    | GetAllAccounts => simpa only [invoke, commit_bind_pure, commit_GetAllAccounts] using hb
    | GetSupply => simpa only [invoke, commit_bind_pure, commit_GetSupply] using hb
    | GetReserves => simpa only [invoke, commit_bind_pure, commit_GetReserves] using hb
    | GetStats => simpa only [invoke, commit_bind_pure, commit_GetStats] using hb
  · simp only [invoke, commit_bind_pure, commit_InitLedger]
    rw [getState_putState_ne "chetan" id _ _ h2, getState_putState_ne "treasury" id _ _ h1]
    exact ha
  · simp only [invoke, commit_bind_pure, commit_InitLedger]
    rcases h with h | h
    · subst h
      exact ⟨_, by rw [getState_putState_ne "chetan" "treasury" _ _ (by decide),
        getState_putState_same], rfl⟩
    · subst h
      exact ⟨_, getState_putState_same _ _ _, rfl⟩

/-- Witness of C18: in `chetanHolds500`, `SanctionAccount(chetan)` leaves the balance of
`chetan` at 500, and `InitLedger` leaves it at 0. -/
theorem balances_kept_except_by_InitLedger_witness :
    HoldsBalance chetanHolds500.accounts "chetan" 500 ∧
      HoldsBalance (commit (invoke org2 (Call.SanctionAccount "chetan")) chetanHolds500).accounts
        "chetan" 500 ∧
      HoldsBalance (commit (invoke org2 Call.InitLedger) chetanHolds500).accounts "chetan" 0 :=
  ⟨⟨_, rfl, rfl⟩,
    (balances_kept_except_by_InitLedger chetanHolds500 org2 "chetan"
      { id := "chetan", ownerMSP := "Org1MSP", kycStatus := "VERIFIED", kycHash := none,
        frozen := false, sanctioned := false, balance := 500, meta := [("role", "RETAIL")] }
      rfl).1 (Call.SanctionAccount "chetan") trivial,
    (balances_kept_except_by_InitLedger chetanHolds500 org2 "chetan"
      { id := "chetan", ownerMSP := "Org1MSP", kycStatus := "VERIFIED", kycHash := none,
        frozen := false, sanctioned := false, balance := 500, meta := [("role", "RETAIL")] }
      rfl).2.2 (Or.inr rfl)⟩

/-- C18 (counterexample): in `chetanHolds500` the account `chetan` exists with a balance of
500; `InitLedger`, which is neither `Mint` nor `Transfer`, returns and leaves it a balance
of 0. -/
theorem InitLedger_rewrites_balances :
    balanceOf chetanHolds500 "chetan" = 500 ∧
      (getState "chetan" chetanHolds500.accounts).isSome = true ∧
      result (invoke issuer Call.InitLedger) chetanHolds500
        = Except.ok (Ret.msg "Initialized 2 accounts") ∧
      balanceOf (commit (invoke issuer Call.InitLedger) chetanHolds500) "chetan" = 0 :=
  ⟨rfl, rfl, rfl, rfl⟩

/-! ## Freeze and unfreeze -/

/-- C19: on a registered account, `FreezeAccount` on an already frozen account and
`UnfreezeAccount` on an account that is not frozen return their status message with nothing
written and no event set; `FreezeAccount` applied twice gives the state that one application
gives, and so does `UnfreezeAccount`; and both leave the sanctioned flag, the kycStatus and
the balance of the account as they were. -/
theorem freeze_unfreeze_idempotent (id : String) :
    (∀ (w : TxState) (a : Account), getState id w.ledger.accounts = some a → a.frozen = true →
      FreezeAccount id w = (Except.ok ("Account " ++ id ++ " already frozen"), w)) ∧
    (∀ (w : TxState) (a : Account), getState id w.ledger.accounts = some a → a.frozen = false →
      UnfreezeAccount id w = (Except.ok ("Account " ++ id ++ " is already unfrozen"), w)) ∧
    (∀ s : Ledger,
      commit (FreezeAccount id) (commit (FreezeAccount id) s) = commit (FreezeAccount id) s) ∧
    (∀ s : Ledger,
      commit (UnfreezeAccount id) (commit (UnfreezeAccount id) s)
        = commit (UnfreezeAccount id) s) ∧
    (∀ (s : Ledger) (a : Account), getState id s.accounts = some a →
      getState id (commit (FreezeAccount id) s).accounts = some { a with frozen := true } ∧
      getState id (commit (UnfreezeAccount id) s).accounts
        = some { a with frozen := false }) := by
  refine ⟨?_, ?_, ?_, ?_, ?_⟩
  · intro w a ha hf
    rw [FreezeAccount_eq, ha]
    simp [hf]
  · intro w a ha hf
    rw [UnfreezeAccount_eq, ha]
    simp [hf]
  · intro s
    rw [commit_FreezeAccount id s]
    cases h : getState id s.accounts with
    | none =>
      dsimp only
      rw [commit_FreezeAccount, h]
    | some a =>
      dsimp only
      by_cases hf : a.frozen = true
      · rw [if_pos hf, commit_FreezeAccount, h]
        simp [hf]
      · rw [if_neg hf, commit_FreezeAccount]
        simp [withAccount, getState_putState_same]
  · intro s
    rw [commit_UnfreezeAccount id s]
    cases h : getState id s.accounts with
    | none =>
      dsimp only
      rw [commit_UnfreezeAccount, h]
    | some a =>
      dsimp only
      by_cases hf : a.frozen = false
      · rw [if_pos hf, commit_UnfreezeAccount, h]
        simp [hf]
      · rw [if_neg hf, commit_UnfreezeAccount]
        simp [withAccount, getState_putState_same]
  · intro s a ha
    constructor
    · rw [commit_FreezeAccount, ha]
      dsimp only
      by_cases hf : a.frozen = true
      · rw [if_pos hf, ha]
        cases a
        simp only at hf
        subst hf
        rfl
      · rw [if_neg hf]
        exact getState_putState_same id _ s.accounts
    · rw [commit_UnfreezeAccount, ha]
      dsimp only
      by_cases hf : a.frozen = false
      · rw [if_pos hf, ha]
        cases a
        simp only at hf
        subst hf
        rfl
      · rw [if_neg hf]
        exact getState_putState_same id _ s.accounts

/-- Witness of C19: in `aliceFrozen` a second `FreezeAccount(alice)` returns its message and
stages nothing, and in the scenario ledger, where `alice` is not frozen,
`UnfreezeAccount(alice)` does the same; freezing `alice` twice is freezing her once. -/
theorem freeze_unfreeze_idempotent_witness :
    FreezeAccount "alice" (begin aliceFrozen)
        = (Except.ok ("Account " ++ "alice" ++ " already frozen"), begin aliceFrozen) ∧
      UnfreezeAccount "alice" (begin aliceVerified)
        = (Except.ok ("Account " ++ "alice" ++ " is already unfrozen"), begin aliceVerified) ∧
      commit (FreezeAccount "alice") (commit (FreezeAccount "alice") aliceVerified)
        = commit (FreezeAccount "alice") aliceVerified :=
  ⟨(freeze_unfreeze_idempotent "alice").1 (begin aliceFrozen) _ rfl rfl,
    (freeze_unfreeze_idempotent "alice").2.1 (begin aliceVerified) _ rfl rfl,
    (freeze_unfreeze_idempotent "alice").2.2.1 aliceVerified⟩

/-! ## Conservation on the normal operating path -/

theorem balanced_withAccount (s : Ledger) (id : String) (a' : Account)
    (hb : supplyValue s = totalBalance s) (hbal : a'.balance = balanceOf s id) :
    supplyValue (withAccount s id a') = totalBalance (withAccount s id a') := by
  rw [totalBalance_withAccount, supplyValue_withAccount, hbal, hb]
  ring

theorem balanced_step_normal (s : Ledger) (ctx : Ctx) (c : Call)
    (hn : normalPathCall s ctx c) (hb : supplyValue s = totalBalance s) :
    supplyValue (commit (invoke ctx c) s) = totalBalance (commit (invoke ctx c) s) := by
  cases c with
  | RegisterAccount id =>
    simp only [invoke, commit_bind_pure, commit_RegisterAccount]
    cases h : getState id s.accounts with
    | none => exact balanced_withAccount s id _ hb (balanceOf_of_getState_none s id h).symm
    | some a => exact hb
  | SubmitKYC id kycHash =>
    simp only [invoke, commit_bind_pure, commit_SubmitKYC]
    cases h : getState id s.accounts with
    | none => exact hb
    | some a => exact balanced_withAccount s id _ hb (balanceOf_of_getState s id a h).symm
  | VerifyKYC id =>
    simp only [invoke, commit_bind_pure, commit_VerifyKYC]
    cases h : getState id s.accounts with
    | none => exact hb
    | some a => exact balanced_withAccount s id _ hb (balanceOf_of_getState s id a h).symm
  | FreezeAccount id =>
    simp only [invoke, commit_bind_pure, commit_FreezeAccount]
    cases h : getState id s.accounts with
    | none => exact hb
    | some a =>
      dsimp only
      split_ifs
      · exact hb
      · exact balanced_withAccount s id _ hb (balanceOf_of_getState s id a h).symm
  | UnfreezeAccount id =>
    simp only [invoke, commit_bind_pure, commit_UnfreezeAccount]
    cases h : getState id s.accounts with
    | none => exact hb
    | some a =>
      dsimp only
      split_ifs
      · exact hb
      · exact balanced_withAccount s id _ hb (balanceOf_of_getState s id a h).symm
  | SanctionAccount id =>
    simp only [invoke, commit_bind_pure, commit_SanctionAccount]
    cases h : getState id s.accounts with
    | none => exact hb
    | some a => exact balanced_withAccount s id _ hb (balanceOf_of_getState s id a h).symm
  | UnsanctionAccount id =>
    simp only [invoke, commit_bind_pure, commit_UnsanctionAccount]
    cases h : getState id s.accounts with
    | none => exact hb
    | some a => exact balanced_withAccount s id _ hb (balanceOf_of_getState s id a h).symm
  | SetReserveReport amount =>
    simp only [invoke, commit_bind_pure, commit_SetReserveReport]
    split_ifs
    · exact hb
    · exact hb
  | Mint toId amount =>
    simp only [invoke, commit_bind_pure, commit_Mint]
    cases h : getState toId s.accounts with
    | none => exact hb
    | some a =>
      dsimp only
      split_ifs with hok
      · have hsum := sum_putState toId { a with balance := a.balance + amount } s.accounts
        rw [h] at hsum
        have h2 := hb
        simp only [totalBalance] at h2
        show supplyValue s + amount = _
        simp only [totalBalance, hsum, h2]
        ring
      · exact hb
  | Transfer fromId toId amount travelRuleHash =>
    have hne : fromId ≠ toId := hn
    simp only [invoke, commit_bind_pure, commit_Transfer]
    cases hf : getState fromId s.accounts with
    | none => exact hb
    | some fromA =>
      cases ht : getState toId s.accounts with
      | none => exact hb
      | some toA =>
        dsimp only
        split_ifs with hok
        · rw [totalBalance_withAccount, totalBalance_withAccount,
            balanceOf_withAccount_ne s fromId toId _ (Ne.symm hne),
            balanceOf_of_getState s fromId fromA hf, balanceOf_of_getState s toId toA ht,
            supplyValue_withAccount, supplyValue_withAccount, hb]
          ring
        · exact hb
  | InitLedger => exact absurd hn (by simp [normalPathCall])
  | GetAccount id => simpa only [invoke, commit_bind_pure, commit_GetAccount] using hb
  | GetAllAccounts => simpa only [invoke, commit_bind_pure, commit_GetAllAccounts] using hb
  | GetSupply => simpa only [invoke, commit_bind_pure, commit_GetSupply] using hb
  | GetReserves => simpa only [invoke, commit_bind_pure, commit_GetReserves] using hb
  | GetStats => simpa only [invoke, commit_bind_pure, commit_GetStats] using hb

/-- C20: in every state reached from the empty ledger without `InitLedger` and with every
`Transfer` between two distinct accounts, the value read by `GetSupply` is the sum of the
balances of all account records; and each such invocation, made in any state where the
supply read is that sum, leaves a state where it is again. -/
theorem normal_path_conservation :
    (∀ s : Ledger, ReachableVia normalPathCall s →
      result GetSupply s = Except.ok (totalBalance s)) ∧
    (∀ (s : Ledger) (ctx : Ctx) (c : Call), normalPathCall s ctx c →
      result GetSupply s = Except.ok (totalBalance s) →
      result GetSupply (commit (invoke ctx c) s)
        = Except.ok (totalBalance (commit (invoke ctx c) s))) := by
  constructor
  · intro s h
    have hb : supplyValue s = totalBalance s := by
      induction h with
      | init => rfl
      | step s ctx c _ hal ih => exact balanced_step_normal s ctx c hal ih
    rw [result_GetSupply, hb]
  · intro s ctx c hn h
    rw [result_GetSupply] at h
    injection h with h
    rw [result_GetSupply, balanced_step_normal s ctx c hn h]

/-- Witness of C20: the state after the scenario is reached on the normal operating path;
`GetSupply` reads 500 there, and the balances, 300 and 200, sum to 500. -/
theorem normal_path_conservation_witness :
    ReachableVia normalPathCall (run scenarioTrace emptyLedger) ∧
      result GetSupply (run scenarioTrace emptyLedger)
        = Except.ok (totalBalance (run scenarioTrace emptyLedger)) ∧
      totalBalance (run scenarioTrace emptyLedger) = 500 ∧
      (run scenarioTrace emptyLedger).accounts.map (fun e => (e.1, e.2.balance))
        = [("alice", 300), ("bob", 200)] :=
  have hr : ReachableVia normalPathCall (run scenarioTrace emptyLedger) :=
    reachableVia_run normalPathCall scenarioTrace emptyLedger ReachableVia.init (by decide)
  ⟨hr, normal_path_conservation.1 (run scenarioTrace emptyLedger) hr, rfl, rfl⟩

end USDw
